import Mathlib

/-!
# Contact transport protocol: frame decoding, command identifiers, ordered queue, contact request

A shallow embedding of `src/protocol/ProtocolManager.cpp` and
`src/protocol/ContactRequestClient.cpp`.

Conventions
* a byte is a `Nat`; a byte buffer (`QByteArray`, the socket's receive buffer, the bytes
  written to a socket) is a `List Nat`;
* `quint16` values are `Nat`s, reduced `% 65536` where the C++ code truncates;
* a `QString` whose length matters is the list of its UTF-16 code units;
* `qFatal` and a failing `Q_ASSERT` end the run: they are explicit outcomes;
* code that is called but is not part of the sources (`callCommand`, `CommandDataParser`,
  `CryptoKey`, `IncomingSocket::introData`) is either recorded as an observable call, taken
  as a parameter, or modelled from the specification under a doc comment that says so.
-/

namespace Rebound

/-! ## Frame decoding: `ProtocolManager::socketReadable` -/

/-- The value of `qFromBigEndian<quint16>` on two consecutive bytes. -/
def be16 (hi lo : Nat) : Nat := (hi % 256) * 256 + lo % 256

/-- The two bytes `qToBigEndian((quint16) n, ..)` stores. -/
def toBe16 (n : Nat) : List Nat := [n / 256 % 256, n % 256]

/-- The arguments of one `callCommand(command, state, identifier, data, dataSize)` call made
by `socketReadable` (lines 162-164). `data` is the whole buffer that was read for the frame,
6-byte header included, since the pointer handed over is `data.constData()`; `dataSize` is
`msgLength`, the payload length. -/
structure Call where
  command : Nat
  state : Nat
  identifier : Nat
  data : List Nat
  dataSize : Nat
  deriving DecidableEq, Repr

/-- What one evaluation of the loop condition and body of `socketReadable` does. -/
inductive FrameDecodeResult where
  /-- Either `available >= 6` is false, or the `break` of line 154: nothing is read. -/
  | Incomplete
  /-- The `return` of line 145: `peek` delivered fewer than two bytes. -/
  | PeekFailed
  /-- The `qFatal` of line 149: the length field is 0. -/
  | Fatal
  /-- The `Q_ASSERT` of line 160 fails: `read` delivered fewer bytes than asked for. -/
  | AssertFailed
  /-- One frame was read and handed to `callCommand`; `consumed` bytes left the buffer. -/
  | Frame (call : Call) (consumed : Nat)
  deriving DecidableEq, Repr

/-- One turn of the `while (available >= 6)` loop of `socketReadable` (lines 141-166), on the
loop variable `available` and the socket's receive buffer `buf`. `peek` and `read` deliver
at most what the buffer holds. -/
def readFrame (available : Nat) (buf : List Nat) : FrameDecodeResult :=
  if available < 6 then .Incomplete
  else
    let peeked := buf.take 2
    if peeked.length < 2 then .PeekFailed
    else
      let msgLength := be16 (peeked.getD 0 0) (peeked.getD 1 0)
      if msgLength = 0 then .Fatal
      else
        let msgLength := msgLength - 1
        if available - 6 < msgLength then .Incomplete
        else
          let data := buf.take (msgLength + 6)
          if data.length ≠ msgLength + 6 then .AssertFailed
          else
            .Frame
              { command := data.getD 2 0
                state := data.getD 3 0
                identifier := be16 (data.getD 4 0) (data.getD 5 0)
                data := data
                dataSize := msgLength }
              (msgLength + 6)

/-- What a whole run of `socketReadable` leaves behind. -/
structure ReadResult where
  /-- The `callCommand` calls made, in order. -/
  calls : List Call
  /-- The bytes still in the socket's receive buffer. -/
  rest : List Nat
  /-- How the loop ended (never `Frame`). -/
  outcome : FrameDecodeResult
  deriving DecidableEq, Repr

/-- The `while` loop of `socketReadable`: `calls` are the dispatches made so far. -/
def readLoop (available : Nat) (buf : List Nat) (calls : List Call) : ReadResult :=
  match h : readFrame available buf with
  | .Frame call n => readLoop (available - n) (buf.drop n) (calls ++ [call])
  | .Incomplete => ⟨calls, buf, .Incomplete⟩
  | .PeekFailed => ⟨calls, buf, .PeekFailed⟩
  | .Fatal => ⟨calls, buf, .Fatal⟩
  | .AssertFailed => ⟨calls, buf, .AssertFailed⟩
termination_by available
decreasing_by
  unfold readFrame at h
  simp only at h
  split at h
  · cases h
  · split at h
    · cases h
    · split at h
      · cases h
      · split at h
        · cases h
        · split at h
          · cases h
          · injection h with _ hn
            omega

/-- Embeds `ProtocolManager::socketReadable` on a socket whose receive buffer holds `buf`:
`available = socket->bytesAvailable()`, then the loop. -/
def socketReadable (buf : List Nat) : ReadResult :=
  readLoop buf.length buf []

/-- Modelled from the spec: the encoder of a frame (`ProtocolCommand`, which fills
`commandBuffer`, is not among the sources). Wire format: big-endian `u16` length
(`payload_len + 1`), command, subcommand/flags, big-endian `u16` identifier, payload. -/
def encodeFrame (command flags identifier : Nat) (payload : List Nat) : List Nat :=
  toBe16 (payload.length + 1) ++ [command, flags] ++ toBe16 identifier ++ payload

/-! ## Pending commands, identifiers and the ordered queue: `ProtocolManager` -/

/-- The part of `ProtocolCommand` that `ProtocolManager` reads: `identifier()` and
`commandBuffer`. -/
structure ProtocolCommand where
  identifier : Nat
  commandBuffer : List Nat
  deriving DecidableEq, Repr

/-- The states of `QAbstractSocket::SocketState`. -/
inductive SocketState where
  | UnconnectedState
  | HostLookupState
  | ConnectingState
  | ConnectedState
  | BoundState
  | ListeningState
  | ClosingState
  deriving DecidableEq, Repr

/-- A `QTcpSocket` as far as the protocol code sees it: its state, the bytes received and
not yet read, and the bytes handed to `write`, in order, over the socket's lifetime. -/
structure QTcpSocket where
  state : SocketState
  readBuffer : List Nat
  written : List Nat
  deriving DecidableEq, Repr

/-- Embeds `QTcpSocket::write(bytes)`. -/
def QTcpSocket.write (s : QTcpSocket) (bytes : List Nat) : QTcpSocket :=
  { s with written := s.written ++ bytes }

/-- Embeds `QTcpSocket::close()`: the socket is no longer connected. What Qt does with unread
data is not modelled. -/
def QTcpSocket.close (s : QTcpSocket) : QTcpSocket :=
  { s with state := .UnconnectedState }

/-- Embeds `new QTcpSocket(this)`. -/
def QTcpSocket.fresh : QTcpSocket :=
  { state := .UnconnectedState, readBuffer := [], written := [] }

/-- Embeds `QHash<quint16, ProtocolCommand*> pendingCommands` as an association list. -/
abbrev PendingCommands := List (Nat × ProtocolCommand)

/-- Embeds `QHash::contains`. -/
def PendingCommands.contains (t : PendingCommands) (identifier : Nat) : Bool :=
  t.any (fun e => e.1 == identifier)

/-- Embeds `QHash::insert`: an entry already stored under the key is replaced. -/
def PendingCommands.insert (t : PendingCommands) (identifier : Nat) (command : ProtocolCommand) :
    PendingCommands :=
  (identifier, command) :: t.filter (fun e => e.1 != identifier)

/-- Embeds `QHash::remove`. -/
def PendingCommands.remove (t : PendingCommands) (identifier : Nat) : PendingCommands :=
  t.filter (fun e => e.1 != identifier)

/-- The identifiers stored in the table. -/
def PendingCommands.keys (t : PendingCommands) : List Nat := t.map Prod.fst

/-- The members of `ProtocolManager` that the modelled functions touch. `primarySocket` is
`none` for the null pointer; `primaryConnectedEmitted` counts `emit primaryConnected()`. -/
structure ProtocolManager where
  primarySocket : Option QTcpSocket
  pendingCommands : PendingCommands
  commandQueue : List ProtocolCommand
  primaryConnectedEmitted : Nat
  deriving DecidableEq, Repr

/-- The constructor: `primarySocket(0)`, empty containers. -/
def ProtocolManager.init : ProtocolManager :=
  { primarySocket := none, pendingCommands := [], commandQueue := [],
    primaryConnectedEmitted := 0 }

/-- Embeds `ProtocolManager::isPrimaryConnected`. -/
def ProtocolManager.isPrimaryConnected (m : ProtocolManager) : Bool :=
  match m.primarySocket with
  | some s => s.state == .ConnectedState
  | none => false

/-- The bytes handed to the primary socket so far (none when there is no socket). -/
def ProtocolManager.written (m : ProtocolManager) : List Nat :=
  match m.primarySocket with
  | some s => s.written
  | none => []

/-- The ways a `ProtocolManager` function ends the run instead of returning. -/
inductive Abort where
  /-- Failure of `Q_ASSERT(!pendingCommands.contains(command->identifier()))`, line 80. -/
  | IdentifierPending
  /-- Failure of `Q_ASSERT(commandQueue.isEmpty())`, line 92. -/
  | QueueNotEmpty
  /-- Call of `qFatal("Not implemented")`, line 97. -/
  | NotImplemented
  /-- Failure of `Q_ASSERT_X(false, ..)`, line 106. -/
  | UnexpectedSender
  /-- Call of `qFatal("Unbuffered protocol replies are not implemented")`, line 149. -/
  | UnbufferedReply
  /-- Failure of `Q_ASSERT(re == msgLength + 6)`, line 160. -/
  | ShortRead
  deriving DecidableEq, Repr

/-- The do-while loop of `getIdentifier` (lines 70-73). `rand i` is the value of the
`i`-th call of `qrand()` (never negative); `(qrand() % 65535) + 1` is at most 65535, so
the assignment to the `quint16` does not truncate. The loop has no bound in the source:
`fuel` bounds the number of draws and `none` says that all of them hit a pending
identifier. -/
def drawIdentifier (t : PendingCommands) (rand : Nat → Nat) : Nat → Nat → Option Nat
  | 0, _ => none
  | fuel + 1, i =>
    let re := rand i % 65535 + 1
    if t.contains re then drawIdentifier t rand fuel (i + 1) else some re

/-- Embeds `ProtocolManager::getIdentifier`. -/
def getIdentifier (t : PendingCommands) (rand : Nat → Nat) (fuel : Nat) : Option Nat :=
  if t.length ≥ 50000 then some 0 else drawIdentifier t rand fuel 0

/-- Embeds `ProtocolManager::sendCommand`. -/
def sendCommand (m : ProtocolManager) (command : ProtocolCommand) (ordered : Bool) :
    Except Abort ProtocolManager :=
  if m.pendingCommands.contains command.identifier then .error .IdentifierPending
  else
    let m1 := { m with pendingCommands := m.pendingCommands.insert command.identifier command }
    if ordered then
      if !m1.isPrimaryConnected then
        .ok { m1 with commandQueue := m1.commandQueue ++ [command] }
      else if !m1.commandQueue.isEmpty then .error .QueueNotEmpty
      else
        let socket := m1.primarySocket.map (fun s => s.write command.commandBuffer)
        .ok { m1 with primarySocket := socket }
    else .error .NotImplemented

/-- The object `sender()` yields in a slot. -/
inductive Sender where
  /-- Not a `QTcpSocket`: the `qobject_cast` gives null. -/
  | NotASocket
  /-- The socket `primarySocket` points to. -/
  | Primary
  /-- Some other `QTcpSocket`. -/
  | Other
  deriving DecidableEq, Repr

/-- The loop of lines 114-115:
`while (!commandQueue.isEmpty()) primarySocket->write(commandQueue.takeFirst()->commandBuffer)`.
It returns the socket; the queue is empty when it ends. -/
def flushQueue : List ProtocolCommand → QTcpSocket → QTcpSocket
  | [], s => s
  | c :: queue, s => flushQueue queue (s.write c.commandBuffer)

/-- Embeds `ProtocolManager::socketConnected`. -/
def socketConnected (m : ProtocolManager) (sender : Sender) : Except Abort ProtocolManager :=
  match sender, m.primarySocket with
  | .NotASocket, _ => .error .UnexpectedSender
  | .Primary, some s =>
    .ok { m with primarySocket := some (flushQueue m.commandQueue s),
                 commandQueue := [],
                 primaryConnectedEmitted := m.primaryConnectedEmitted + 1 }
  | _, _ => .ok m

/-- Embeds `ProtocolManager::socketDisconnected`: it only logs. -/
def socketDisconnected (m : ProtocolManager) : ProtocolManager := m

/-- Embeds `ProtocolManager::connectPrimary`. `connectToHost` leaves the socket in a state other
than `UnconnectedState`; the state it is given here is `ConnectingState`. -/
def connectPrimary (m : ProtocolManager) : ProtocolManager :=
  match m.primarySocket with
  | some s =>
    if s.state != .UnconnectedState then m
    else { m with primarySocket := some { s with state := .ConnectingState } }
  | none =>
    { m with primarySocket := some { QTcpSocket.fresh with state := .ConnectingState } }

/-- The primary socket reaches `ConnectedState`: Qt sets the state and emits `connected()`,
which runs the slot `socketConnected` with the primary socket as sender. -/
def primaryConnectedEvent (m : ProtocolManager) : Except Abort ProtocolManager :=
  socketConnected
    { m with primarySocket := m.primarySocket.map (fun s => { s with state := .ConnectedState }) }
    .Primary

/-- The primary socket loses its connection: Qt sets `UnconnectedState` and emits
`disconnected()`, which runs the slot `socketDisconnected`. -/
def primaryDisconnectedEvent (m : ProtocolManager) : ProtocolManager :=
  socketDisconnected
    { m with primarySocket := m.primarySocket.map (fun s => { s with state := .UnconnectedState }) }

/-- A `Connected→Disconnected` transition followed by a reconnect: the disconnect event,
`connectPrimary`, and the connect event. -/
def reconnect (m : ProtocolManager) : Except Abort ProtocolManager :=
  primaryConnectedEvent (connectPrimary (primaryDisconnectedEvent m))

/-- Submitting commands one after the other through `sendCommand(command, true)`. -/
def sendCommands : ProtocolManager → List ProtocolCommand → Except Abort ProtocolManager
  | m, [] => .ok m
  | m, c :: cs =>
    match sendCommand m c true with
    | .ok m1 => sendCommands m1 cs
    | .error e => .error e

/-- The concatenation `commandBuffer(c1) ++ ... ++ commandBuffer(cn)`. -/
def commandBuffers : List ProtocolCommand → List Nat
  | [] => []
  | c :: cs => c.commandBuffer ++ commandBuffers cs

/-- Modelled from the spec: `resolve(identifier, frame)` of the Pending Command Table
(`callCommand`, which handles a reply, is not among the sources): the entry is removed. -/
def resolve (m : ProtocolManager) (identifier : Nat) : ProtocolManager :=
  { m with pendingCommands := m.pendingCommands.remove identifier }

/-- The result of the operation `send`. -/
inductive SendResult where
  /-- Here `getIdentifier` returned the reserved value 0. -/
  | IdentifierSpaceExhausted
  /-- Here `getIdentifier` has not returned within the given number of draws. -/
  | StillDrawing
  /-- Here `sendCommand` ended the run. -/
  | Aborted (abort : Abort)
  /-- The command was inserted under `identifier`. -/
  | Sent (identifier : Nat) (m : ProtocolManager)
  deriving DecidableEq, Repr

/-- Modelled from the spec: the operation `send(command, ordered)` (the caller of
`getIdentifier` and `sendCommand`, `ProtocolCommand`, is not among the sources). It
allocates an identifier with `getIdentifier`, fails with `IdentifierSpaceExhausted` when
that is 0, and otherwise hands the command with this identifier to `sendCommand`. -/
def send (m : ProtocolManager) (commandBuffer : List Nat) (ordered : Bool)
    (rand : Nat → Nat) (fuel : Nat) : SendResult :=
  match getIdentifier m.pendingCommands rand fuel with
  | none => .StillDrawing
  | some 0 => .IdentifierSpaceExhausted
  | some (identifier + 1) =>
    match sendCommand m ⟨identifier + 1, commandBuffer⟩ ordered with
    | .ok m1 => .Sent (identifier + 1) m1
    | .error e => .Aborted e

/-- An operation on a connection manager: a `send` (with the random source and the number
of draws it is allowed), the resolution of a reply, or an event of the primary socket. -/
inductive Op where
  | Send (commandBuffer : List Nat) (rand : Nat → Nat) (fuel : Nat)
  | Resolve (identifier : Nat)
  | ConnectPrimary
  | Connected
  | Disconnected

/-- One operation. A `send` that allocates no identifier leaves the manager as it is. -/
def applyOp (m : ProtocolManager) : Op → Except Abort ProtocolManager
  | .Send commandBuffer rand fuel =>
    match send m commandBuffer true rand fuel with
    | .Sent _ m1 => .ok m1
    | .Aborted e => .error e
    | .IdentifierSpaceExhausted => .ok m
    | .StillDrawing => .ok m
  | .Resolve identifier => .ok (resolve m identifier)
  | .ConnectPrimary => .ok (connectPrimary m)
  | .Connected => primaryConnectedEvent m
  | .Disconnected => .ok (primaryDisconnectedEvent m)

/-- A sequence of operations, stopping at the first one that ends the run. -/
def applyOps : ProtocolManager → List Op → Except Abort ProtocolManager
  | m, [] => .ok m
  | m, op :: ops =>
    match applyOp m op with
    | .ok m1 => applyOps m1 ops
    | .error e => .error e

/-- The `connectToHost(host(), port())` call that `connectPrimary` makes (line 54), if it
makes one: the host and port it is given. `pHost` and `pPort` are the configured host and
port (`host()` and `port()`). The control flow is that of `connectPrimary`. -/
def connectPrimaryAttempt (m : ProtocolManager) (pHost : List Char) (pPort : Nat) :
    Option (List Char × Nat) :=
  match m.primarySocket with
  | some s => if s.state != .UnconnectedState then none else some (pHost, pPort)
  | none => some (pHost, pPort)

/-- Modelled from the spec: what `callCommand` does to the Pending Command Table with the
frames of one read (`callCommand` is not among the sources): a frame whose identifier is
pending is that command's reply and the entry is removed; a frame for an unknown identifier
leaves the table as it is. -/
def dispatchCalls (t : PendingCommands) : List Call → PendingCommands
  | [] => t
  | call :: calls => dispatchCalls (t.remove call.identifier) calls

/-- Bytes arrive on the primary socket: Qt appends them to the receive buffer. -/
def primaryReceiveEvent (m : ProtocolManager) (bytes : List Nat) : ProtocolManager :=
  let socket := m.primarySocket.map (fun s => { s with readBuffer := s.readBuffer ++ bytes })
  { m with primarySocket := socket }

/-- The primary socket emits `readyRead()`, which runs the slot `socketReadable` with the
primary socket as sender: the loop runs on its receive buffer, the frames read are handed to
`callCommand`, and `qFatal` or a failing `Q_ASSERT` ends the run. -/
def primaryReadableEvent (m : ProtocolManager) : Except Abort ProtocolManager :=
  match m.primarySocket with
  | none => .ok m
  | some s =>
    let r := socketReadable s.readBuffer
    match r.outcome with
    | .Fatal => .error .UnbufferedReply
    | .AssertFailed => .error .ShortRead
    | _ =>
      .ok { m with primarySocket := some { s with readBuffer := r.rest },
                   pendingCommands := dispatchCalls m.pendingCommands r.calls }

/-- An event in the life of a connection manager: an operation of `Op`, a direct call
`sendCommand(command, true)` with any command, the arrival of bytes, or `readyRead()`. -/
inductive Event where
  | Operation (op : Op)
  | SendCommand (command : ProtocolCommand)
  | Receive (bytes : List Nat)
  | Readable

/-- One event. -/
def applyEvent (m : ProtocolManager) : Event → Except Abort ProtocolManager
  | .Operation op => applyOp m op
  | .SendCommand command => sendCommand m command true
  | .Receive bytes => .ok (primaryReceiveEvent m bytes)
  | .Readable => primaryReadableEvent m

/-- A sequence of events, stopping at the first one that ends the run. -/
def applyEvents : ProtocolManager → List Event → Except Abort ProtocolManager
  | m, [] => .ok m
  | m, ev :: evs =>
    match applyEvent m ev with
    | .ok m1 => applyEvents m1 evs
    | .error e => .error e

/-- A frame as the specification has it: command, subcommand/flags, identifier, payload. -/
structure WireFrame where
  command : Nat
  flags : Nat
  identifier : Nat
  payload : List Nat
  deriving DecidableEq, Repr

/-- A frame is valid when its command and flags are bytes, its identifier fits 16 bits and
its payload has at most 65534 bytes (so that the length field fits 16 bits). -/
def WireFrame.valid (f : WireFrame) : Prop :=
  f.command < 256 ∧ f.flags < 256 ∧ f.identifier < 65536 ∧ f.payload.length ≤ 65534

/-- Validity of a frame is decidable. -/
instance (f : WireFrame) : Decidable f.valid := by
  unfold WireFrame.valid
  infer_instance

/-- The bytes of a frame on the wire. -/
def WireFrame.encode (f : WireFrame) : List Nat :=
  encodeFrame f.command f.flags f.identifier f.payload

/-- The `callCommand` call that dispatches the frame. -/
def WireFrame.call (f : WireFrame) : Call :=
  { command := f.command, state := f.flags, identifier := f.identifier,
    data := f.encode, dataSize := f.payload.length }

/-- The concatenation `encode(f1) ++ ... ++ encode(fn)`. -/
def encodeFrames : List WireFrame → List Nat
  | [] => []
  | f :: fs => f.encode ++ encodeFrames fs

/-! ## The hand-off queue of callbacks: `libtego_callbacks.cpp` -/

/-- How the run of a queued callback ends: it returns, it throws an exception of a class
derived from `std::exception` (which the `catch (std::exception&)` of line 27 catches), or
it throws an object of any other type (which that handler does not catch). -/
inductive TaskEnd where
  | Returns
  | ThrowsStdException
  | ThrowsOther
  deriving DecidableEq, Repr

/-- A queued `std::function<void()>`: a name for it, and how its run ends. -/
structure Task where
  id : Nat
  ending : TaskEnd
  deriving DecidableEq, Repr

/-- The state around `consume_tasks` and `push_task`: the shared `taskQueue`, the function's
`static` `localTaskQueue`, the callbacks that were run, in order, and the callbacks whose
exception was logged with `qDebug`, in order. The mutex is not modelled: the calls are taken
one at a time. -/
structure TaskState where
  taskQueue : List Task
  localTaskQueue : List Task
  ran : List Nat
  logged : List Nat
  deriving DecidableEq, Repr

/-- The state at program start: nothing queued, nothing run. -/
def TaskState.init : TaskState :=
  { taskQueue := [], localTaskQueue := [], ran := [], logged := [] }

/-- Embeds `push_task`. -/
def push_task (st : TaskState) (task : Task) : TaskState :=
  { st with taskQueue := st.taskQueue ++ [task] }

/-- Pushing callbacks one after the other. -/
def push_tasks : TaskState → List Task → TaskState
  | st, [] => st
  | st, task :: tasks => push_tasks (push_task st task) tasks

/-- The loop `for (auto task : localTaskQueue)` of lines 21-31 on the callbacks still to be
run. The result says whether the loop ran to its end (`true`) or was left by an exception
that is not caught (`false`). -/
def runTasks : List Task → TaskState → Bool × TaskState
  | [], st => (true, st)
  | task :: tasks, st =>
    let st1 := { st with ran := st.ran ++ [task.id] }
    match task.ending with
    | .Returns => runTasks tasks st1
    | .ThrowsStdException => runTasks tasks { st1 with logged := st1.logged ++ [task.id] }
    | .ThrowsOther => (false, st1)

/-- Embeds `consume_tasks`: the two queues are swapped, the callbacks now in
`localTaskQueue` are run, and `localTaskQueue` is cleared when the loop ran to its end. The
result says whether the function returned (`true`) or was left by an exception (`false`). -/
def consume_tasks (st : TaskState) : Bool × TaskState :=
  let st1 := { st with taskQueue := st.localTaskQueue, localTaskQueue := st.taskQueue }
  match runTasks st1.localTaskQueue st1 with
  | (true, st2) => (true, { st2 with localTaskQueue := [] })
  | (false, st2) => (false, st2)

/-! ## The contact request handshake: `ContactRequestClient` -/

/-- The `state` member of `ContactRequestClient`. -/
inductive RequestState where
  | NotConnected
  | WaitCookie
  | WaitAck
  | WaitResponse
  deriving DecidableEq, Repr

/-- The members of `ContactRequestClient` that the modelled functions touch. The two
`QString`s are held as the bytes their serialisation puts on the wire. -/
structure ContactRequestClient where
  state : RequestState
  socket : QTcpSocket
  m_mynick : List Nat
  m_message : List Nat
  deriving DecidableEq, Repr

/-- The constructor: `state(NotConnected)`, a socket of its own. -/
def ContactRequestClient.init (nick message : List Nat) : ContactRequestClient :=
  { state := .NotConnected, socket := QTcpSocket.fresh, m_mynick := nick, m_message := message }

/-- The class `CryptoKey` is not among the sources: what its three methods return is a
parameter. `none` stands for a null `QByteArray`. -/
structure CryptoKey where
  isValid : Bool
  encodedPublicKey : Option (List Nat)
  signData : List Nat → Option (List Nat)

/-- A `QString`: its UTF-16 code units (the values of its `QChar`s), in order. `size()`,
`lastIndexOf` and `truncate` count these units; a character above U+FFFF takes two. -/
abbrev QString := List Nat

/-- The UTF-16 code units of a sequence of characters: one unit for a character up to
U+FFFF, a surrogate pair for a character above. -/
def utf16 : List Char → QString
  | [] => []
  | c :: cs =>
    if c.toNat < 65536 then c.toNat :: utf16 cs
    else (55296 + (c.toNat - 65536) / 1024) :: (56320 + (c.toNat - 65536) % 1024) :: utf16 cs

/-- The class `Tor::HiddenService` is not among the sources: what `hostname()` and
`cryptoKey()` return is a parameter. -/
structure HiddenService where
  hostname : QString
  cryptoKey : CryptoKey

/-- The four `qWarning` messages of `buildRequestData`, and the name the specification
gives to each failure. -/
inductive Warning where
  /-- Line 94, "unable to determine the local service hostname": `LocalHostnameInvalid`. -/
  | LocalHostnameInvalid
  /-- Line 102, "failed to load service key". -/
  | KeyLoadFailed
  /-- Line 109, "failed to encode service key": `KeyEncodingFailed`. -/
  | KeyEncodingFailed
  /-- Line 117, "failed to sign cookie": `SigningFailed`. -/
  | SigningFailed
  /-- Line 132, "command building failed": `RequestBuildFailed`. -/
  | RequestBuildFailed
  deriving DecidableEq, Repr

/-- How a call of `buildRequestData` ends. -/
inductive BuildOutcome where
  /-- It returned `ok`, after the warning if there is one. -/
  | Returned (ok : Bool) (warning : Option Warning)
  /-- A method was called through the null `service` pointer. -/
  | NullDereference
  deriving DecidableEq, Repr

/-- The scan behind `QString::lastIndexOf(QChar)`: `i` is the index of the head of the
list, `found` the last index seen so far. -/
def lastIndexOfFrom (ch : Nat) : QString → Nat → Int → Int
  | [], _, found => found
  | x :: xs, i, found => lastIndexOfFrom ch xs (i + 1) (if x = ch then (i : Int) else found)

/-- Embeds `QString::lastIndexOf(QChar)`: the index of the last occurrence of the code unit,
-1 if there is none. -/
def lastIndexOf (s : QString) (ch : Nat) : Int := lastIndexOfFrom ch s 0 (-1)

/-- Embeds `QString::truncate(int)`: nothing happens at or beyond the end; a negative position
truncates to the empty string. -/
def truncate (s : QString) (position : Int) : QString :=
  if position < s.length then s.take position.toNat else s

/-- Embeds `QString::toLatin1`: one byte per code unit, `?` for a unit outside Latin-1. -/
def toLatin1 (s : QString) : List Nat :=
  s.map (fun u => if u < 256 then u else 63)

/-- The hostname `buildRequestData` works with (lines 90-91): the service's hostname, or
the null string when there is no service, truncated at its last `.` (`QChar('.')` is the
code unit 46). Its `length` is what `hostname.size()` is on line 92. -/
def localHostname (service : Option HiddenService) : QString :=
  let hostname := match service with
    | some sv => sv.hostname
    | none => []
  truncate hostname (lastIndexOf hostname 46)

/-- Modelled from the spec: the class `CommandDataParser` is not among the sources. It
appends to a byte buffer and keeps an error flag; "length-prefixed" is taken to be a
big-endian `u16` length followed by the bytes, and a field that does not fit this prefix
sets the flag and writes nothing. -/
structure CommandDataParser where
  data : List Nat
  error : Bool
  deriving DecidableEq, Repr

/-- Modelled from the spec: `CommandDataParser::operator<<(quint16)`, a big-endian `u16`. -/
def CommandDataParser.writeU16 (p : CommandDataParser) (v : Nat) : CommandDataParser :=
  { p with data := p.data ++ toBe16 v }

/-- Modelled from the spec: `CommandDataParser::writeFixedData`, the bytes as they are. -/
def CommandDataParser.writeFixedData (p : CommandDataParser) (bytes : List Nat) :
    CommandDataParser :=
  { p with data := p.data ++ bytes }

/-- Modelled from the spec: `CommandDataParser::writeVariableData`, a length-prefixed field.
`operator<<(QString)` is the same on the string's bytes. -/
def CommandDataParser.writeVariableData (p : CommandDataParser) (bytes : List Nat) :
    CommandDataParser :=
  if bytes.length > 65535 then { p with error := true }
  else { p with data := p.data ++ toBe16 bytes.length ++ bytes }

/-- Line 137: `qToBigEndian((quint16) requestData.size(), requestData.data())` stores two
bytes at offset 0 of the buffer (which holds at least two bytes there). -/
def patchLength (requestData : List Nat) : List Nat :=
  toBe16 (requestData.length % 65536) ++ requestData.drop 2

/-- Modelled from the spec: `IncomingSocket::introData` is not among the sources; the
introduction is the single byte that names the purpose of the connection. -/
def introData (purpose : Nat) : List Nat := [purpose]

/-- Embeds `ContactRequestClient::buildRequestData`, with `service` what
`torManager->hiddenServices().value(0)` yields (`none` for the null pointer). -/
def buildRequestData (service : Option HiddenService) (c : ContactRequestClient)
    (cookie : List Nat) : BuildOutcome × ContactRequestClient :=
  let request : CommandDataParser := { data := [], error := false }
  let hostname := localHostname service
  if hostname.length ≠ 16 then (.Returned false (some .LocalHostnameInvalid), c)
  else
    match service with
    | none => (.NullDereference, c)
    | some sv =>
      let serviceKey := sv.cryptoKey
      if !serviceKey.isValid then (.Returned false (some .KeyLoadFailed), c)
      else
        match serviceKey.encodedPublicKey with
        | none => (.Returned false (some .KeyEncodingFailed), c)
        | some publicKeyData =>
          match serviceKey.signData cookie with
          | none => (.Returned false (some .SigningFailed), c)
          | some signature =>
            let request := request.writeVariableData signature
            let request := request.writeU16 0
            let request := request.writeFixedData (toLatin1 hostname)
            let request := request.writeVariableData publicKeyData
            let request := request.writeVariableData signature
            let request := request.writeVariableData c.m_mynick
            let request := request.writeVariableData c.m_message
            if request.error then (.Returned false (some .RequestBuildFailed), c)
            else
              let requestData := patchLength request.data
              (.Returned true none, { c with socket := c.socket.write requestData })

/-- Embeds `ContactRequestClient::socketConnected`. -/
def ContactRequestClient.socketConnected (c : ContactRequestClient) : ContactRequestClient :=
  { c with socket := c.socket.write (introData 0x80), state := .WaitCookie }

/-- Embeds `ContactRequestClient::sendRequest`, with `socksReady` what
`torManager->isSocksReady()` yields: nothing happens when it is false; otherwise
`connectToHost` starts the connection (the state it leaves the socket in is taken to be
`ConnectingState`, as for `connectPrimary`). -/
def ContactRequestClient.sendRequest (c : ContactRequestClient) (socksReady : Bool) :
    ContactRequestClient :=
  if !socksReady then c
  else { c with socket := { c.socket with state := .ConnectingState } }

/-- The socket of the request reaches `ConnectedState`: Qt sets the state and emits
`connected()`, which runs the slot `socketConnected`. -/
def ContactRequestClient.connectedEvent (c : ContactRequestClient) : ContactRequestClient :=
  ContactRequestClient.socketConnected
    { c with socket := { c.socket with state := .ConnectedState } }

/-- Bytes arrive from the peer: Qt appends them to the socket's receive buffer. -/
def ContactRequestClient.receive (c : ContactRequestClient) (bytes : List Nat) :
    ContactRequestClient :=
  { c with socket := { c.socket with readBuffer := c.socket.readBuffer ++ bytes } }

/-- Embeds `ContactRequestClient::handleResponse`. When a byte was read, control reaches the end
of the function without a `return`: the value the caller then sees is not fixed by the
source and is the parameter `unspecified`. -/
def handleResponse (c : ContactRequestClient) (unspecified : Bool) :
    Bool × ContactRequestClient :=
  match c.socket.readBuffer with
  | [] => (true, c)
  | _ :: rest => (unspecified, { c with socket := { c.socket with readBuffer := rest } })

/-- Embeds `ContactRequestClient::socketReadable`. The outcome is that of `buildRequestData` when
it was called; `unspecified` is passed on to `handleResponse`. -/
def ContactRequestClient.socketReadable (service : Option HiddenService)
    (c : ContactRequestClient) (unspecified : Bool) :
    Option BuildOutcome × ContactRequestClient :=
  match c.state with
  | .WaitCookie =>
    if c.socket.readBuffer.length < 16 then (none, c)
    else
      let cookie := c.socket.readBuffer.take 16
      let c1 := { c with socket := { c.socket with readBuffer := c.socket.readBuffer.drop 16 } }
      match buildRequestData service c1 cookie with
      | (.Returned true w, c2) => (some (.Returned true w), { c2 with state := .WaitAck })
      | (.Returned false w, c2) => (some (.Returned false w), { c2 with socket := c2.socket.close })
      | (.NullDereference, c2) => (some .NullDereference, c2)
  | .WaitAck | .WaitResponse =>
    match handleResponse c unspecified with
    | (true, c1) => (none, c1)
    | (false, c1) => (none, { c1 with socket := c1.socket.close })
  | .NotConnected => (none, c)

/-- The bytes the specification lays out for the request: a `u16` total length, the
16-byte hostname, and the length-prefixed public key, signature, nickname and message,
with nothing else. It follows the specification's words (and the comment of line 83), to
be compared with what `buildRequestData` writes. -/
def requestLayout (hostname publicKey signature nick message : List Nat) : List Nat :=
  let lp := fun (bytes : List Nat) => toBe16 bytes.length ++ bytes
  let body := hostname ++ lp publicKey ++ lp signature ++ lp nick ++ lp message
  toBe16 (body.length + 2) ++ body

/-! ## Theorems: frame decoding -/

/-- A decoded frame consumes at least the 6 header bytes and at most `available` bytes. -/
theorem readFrame_consumed {available : Nat} {buf : List Nat} {call : Call} {n : Nat}
    (h : readFrame available buf = .Frame call n) : 6 ≤ n ∧ n ≤ available := by
  unfold readFrame at h
  simp only at h
  split at h
  · cases h
  · split at h
    · cases h
    · split at h
      · cases h
      · split at h
        · cases h
        · split at h
          · cases h
          · injection h with _ hn
            omega

/-- Decoding the two bytes of `toBe16 n` gives `n` back when `n` fits 16 bits. -/
theorem be16_toBe16 (n : Nat) (h : n < 65536) : be16 (n / 256 % 256) (n % 256) = n := by
  unfold be16; omega

/-- The loop goes on after a frame: the frame is dispatched and its bytes leave the buffer. -/
theorem readLoop_frame {available : Nat} {buf : List Nat} {call : Call} {n : Nat}
    (calls : List Call) (h : readFrame available buf = .Frame call n) :
    readLoop available buf calls = readLoop (available - n) (buf.drop n) (calls ++ [call]) := by
  rw [readLoop]
  split <;> simp_all

/-- The loop ends, reading nothing more, as soon as a turn yields no frame. -/
theorem readLoop_stop {available : Nat} {buf : List Nat} (calls : List Call)
    (h : ∀ call n, readFrame available buf ≠ .Frame call n) :
    readLoop available buf calls = ⟨calls, buf, readFrame available buf⟩ := by
  rw [readLoop]
  split <;> simp_all

/-- With fewer than 6 bytes available the loop condition is false. -/
theorem readFrame_short {available : Nat} (buf : List Nat) (h : available < 6) :
    readFrame available buf = .Incomplete := by
  unfold readFrame
  simp [h]

/-- An encoded frame is 6 bytes longer than its payload. -/
theorem encodeFrame_length (command flags identifier : Nat) (payload : List Nat) :
    (encodeFrame command flags identifier payload).length = payload.length + 6 := by
  simp [encodeFrame, toBe16]

/-- One turn of the loop on an encoded frame, followed by anything, reads that frame. -/
theorem readFrame_encode (command flags identifier : Nat) (payload trailing : List Nat)
    (available : Nat) (hid : identifier < 65536) (hlen : payload.length ≤ 65534)
    (hav : payload.length + 6 ≤ available) :
    readFrame available (encodeFrame command flags identifier payload ++ trailing)
      = .Frame ⟨command, flags, identifier, encodeFrame command flags identifier payload,
                payload.length⟩ (payload.length + 6) := by
  have h1 : be16 ((payload.length + 1) / 256 % 256) ((payload.length + 1) % 256)
      = payload.length + 1 := be16_toBe16 _ (by omega)
  have h2 := be16_toBe16 identifier hid
  unfold readFrame
  simp [encodeFrame, toBe16, h1, h2]
  rw [if_neg (by omega), if_neg (by omega)]

/-- One turn of the loop on a strict prefix of an encoded frame reads nothing. -/
theorem readFrame_strict_initial_segment (command flags identifier : Nat) (payload : List Nat)
    (k : Nat) (hlen : payload.length ≤ 65534) (hk : k < payload.length + 6) :
    readFrame k ((encodeFrame command flags identifier payload).take k) = .Incomplete := by
  by_cases h6 : k < 6
  · exact readFrame_short _ h6
  · have h1 : be16 ((payload.length + 1) / 256 % 256) ((payload.length + 1) % 256)
        = payload.length + 1 := be16_toBe16 _ (by omega)
    obtain ⟨j, rfl⟩ : ∃ j, k = j + 6 := ⟨k - 6, by omega⟩
    unfold readFrame
    simp [encodeFrame, toBe16, h1]
    omega

/-- C1. Frame round-trip: for every command byte, flags byte, 16-bit identifier and payload
of at most 65534 bytes, `socketReadable` on the encoded frame makes exactly one `callCommand`
call, with the original command, flags and identifier, with `dataSize` the payload length
and with `data` the frame read, whose bytes after the 6-byte header are the payload; every
byte is consumed and the loop ends on the empty buffer. (The bounds on the command and
flags bytes are not needed.) -/
theorem frame_round_trip (command flags identifier : Nat) (payload : List Nat)
    (hid : identifier < 65536) (hlen : payload.length ≤ 65534) :
    socketReadable (encodeFrame command flags identifier payload)
      = ⟨[⟨command, flags, identifier, encodeFrame command flags identifier payload,
            payload.length⟩], [], .Incomplete⟩
    ∧ (encodeFrame command flags identifier payload).drop 6 = payload := by
  constructor
  · have h := readFrame_encode command flags identifier payload []
      (encodeFrame command flags identifier payload).length hid hlen
      (by rw [encodeFrame_length])
    rw [List.append_nil] at h
    unfold socketReadable
    rw [readLoop_frame [] h, encodeFrame_length, Nat.sub_self]
    rw [readLoop_stop _ (by intro call n; rw [readFrame_short _ (by omega)]; simp)]
    rw [readFrame_short _ (by omega)]
    simp [← encodeFrame_length command flags identifier payload]
  · simp [encodeFrame, toBe16]

/-- The round trip of the frame (command 1, flags 2, identifier 300, payload 7 8 9). -/
theorem frame_round_trip_witness :
    socketReadable (encodeFrame 1 2 300 [7, 8, 9])
      = ⟨[⟨1, 2, 300, encodeFrame 1 2 300 [7, 8, 9], [7, 8, 9].length⟩], [], .Incomplete⟩
    ∧ (encodeFrame 1 2 300 [7, 8, 9]).drop 6 = [7, 8, 9] :=
  frame_round_trip 1 2 300 [7, 8, 9] (by decide) (by decide)

/-- C2. Partial-frame safety: for every encoded frame with a payload of at most 65534 bytes
and every strict prefix of its bytes, `socketReadable` dispatches no frame, leaves the
whole prefix in the receive buffer and ends as `Incomplete`, not as `Fatal`. -/
theorem partial_frame_incomplete (command flags identifier : Nat) (payload : List Nat) (k : Nat)
    (hlen : payload.length ≤ 65534)
    (hk : k < (encodeFrame command flags identifier payload).length) :
    socketReadable ((encodeFrame command flags identifier payload).take k)
      = ⟨[], (encodeFrame command flags identifier payload).take k, .Incomplete⟩ := by
  rw [encodeFrame_length] at hk
  have hl : ((encodeFrame command flags identifier payload).take k).length = k := by
    rw [List.length_take, encodeFrame_length]; omega
  have h := readFrame_strict_initial_segment command flags identifier payload k hlen hk
  unfold socketReadable
  rw [hl, readLoop_stop _ (by intro call n; rw [h]; simp), h]

/-- The first 8 of the 9 bytes of an encoded frame are incomplete. -/
theorem partial_frame_incomplete_witness :
    socketReadable ((encodeFrame 1 2 300 [7, 8, 9]).take 8)
      = ⟨[], (encodeFrame 1 2 300 [7, 8, 9]).take 8, .Incomplete⟩ :=
  partial_frame_incomplete 1 2 300 [7, 8, 9] 8 (by decide) (by decide)

/-- C3. Full frame plus trailing bytes: for every frame with a 16-bit identifier and a
payload of at most 65534 bytes and all trailing bytes, one turn of the decoding loop reads
exactly the encoded frame and consumes `6 + payload length` bytes; what is left in the
buffer is exactly the trailing bytes; and the run of `socketReadable` is this one dispatch
followed by the loop on the trailing bytes alone. -/
theorem frame_then_trailing (command flags identifier : Nat) (payload trailing : List Nat)
    (hid : identifier < 65536) (hlen : payload.length ≤ 65534) :
    readFrame (encodeFrame command flags identifier payload ++ trailing).length
        (encodeFrame command flags identifier payload ++ trailing)
      = .Frame ⟨command, flags, identifier, encodeFrame command flags identifier payload,
                payload.length⟩ (6 + payload.length)
    ∧ (encodeFrame command flags identifier payload ++ trailing).drop (6 + payload.length)
      = trailing
    ∧ socketReadable (encodeFrame command flags identifier payload ++ trailing)
      = readLoop trailing.length trailing
          [⟨command, flags, identifier, encodeFrame command flags identifier payload,
            payload.length⟩] := by
  have hl := encodeFrame_length command flags identifier payload
  have h := readFrame_encode command flags identifier payload trailing
    (encodeFrame command flags identifier payload ++ trailing).length hid hlen
    (by rw [List.length_append, hl]; omega)
  have hd : (encodeFrame command flags identifier payload ++ trailing).drop (payload.length + 6)
      = trailing := by
    rw [← hl]; exact List.drop_left _ _
  refine ⟨by rw [h, Nat.add_comm], by rw [Nat.add_comm, hd], ?_⟩
  unfold socketReadable
  rw [readLoop_frame [] h, hd, List.length_append, hl]
  simp

/-- A frame followed by the three bytes 0 0 5. -/
theorem frame_then_trailing_witness :
    readFrame (encodeFrame 1 2 300 [7, 8, 9] ++ [0, 0, 5]).length
        (encodeFrame 1 2 300 [7, 8, 9] ++ [0, 0, 5])
      = .Frame ⟨1, 2, 300, encodeFrame 1 2 300 [7, 8, 9], [7, 8, 9].length⟩
          (6 + [7, 8, 9].length)
    ∧ (encodeFrame 1 2 300 [7, 8, 9] ++ [0, 0, 5]).drop (6 + [7, 8, 9].length) = [0, 0, 5]
    ∧ socketReadable (encodeFrame 1 2 300 [7, 8, 9] ++ [0, 0, 5])
      = readLoop [0, 0, 5].length [0, 0, 5]
          [⟨1, 2, 300, encodeFrame 1 2 300 [7, 8, 9], [7, 8, 9].length⟩] :=
  frame_then_trailing 1 2 300 [7, 8, 9] [0, 0, 5] (by decide) (by decide)

/-- C4, as stated, fails: the receive buffer 0 0 1 2 3 has the length field 0, and
`socketReadable` ends as `Incomplete`, not as `Fatal`: with fewer than 6 bytes available
the loop is not entered and the length field is not looked at. -/
theorem zero_length_short_buffer :
    be16 ([0, 0, 1, 2, 3].getD 0 0) ([0, 0, 1, 2, 3].getD 1 0) = 0
    ∧ socketReadable [0, 0, 1, 2, 3] = ⟨[], [0, 0, 1, 2, 3], .Incomplete⟩ := by
  constructor
  · decide
  · unfold socketReadable
    have h : readFrame [0, 0, 1, 2, 3].length [0, 0, 1, 2, 3] = .Incomplete := by decide
    rw [readLoop_stop _ (by intro call n; rw [h]; simp), h]

/-- C4, amended. For every receive buffer whose big-endian `u16` length field is 0: if at
least 6 bytes are available, `socketReadable` ends as `Fatal`, having dispatched no frame
and consumed nothing, whatever the other bytes are; if fewer than 6 bytes are available
it ends as `Incomplete`. -/
theorem zero_length_fatal (buf : List Nat) (h0 : be16 (buf.getD 0 0) (buf.getD 1 0) = 0) :
    (6 ≤ buf.length → socketReadable buf = ⟨[], buf, .Fatal⟩)
    ∧ (buf.length < 6 → socketReadable buf = ⟨[], buf, .Incomplete⟩) := by
  constructor
  · intro h6
    have h : readFrame buf.length buf = .Fatal := by
      rcases buf with _ | ⟨a, _ | ⟨b, rest⟩⟩
      · simp at h6
      · simp at h6
      · unfold readFrame
        simp at h0 h6
        simp [h0]
        omega
    unfold socketReadable
    rw [readLoop_stop _ (by intro call n; rw [h]; simp), h]
  · intro h6
    have h := readFrame_short buf h6
    unfold socketReadable
    rw [readLoop_stop _ (by intro call n; rw [h]; simp), h]

/-- A zero length field in front of six more bytes is fatal. -/
theorem zero_length_fatal_witness :
    socketReadable [0, 0, 9, 9, 9, 9, 9, 9] = ⟨[], [0, 0, 9, 9, 9, 9, 9, 9], .Fatal⟩ :=
  (zero_length_fatal [0, 0, 9, 9, 9, 9, 9, 9] (by decide)).1 (by decide)

/-! ## Theorems: identifiers and the pending-command table -/

/-- A value the draw loop returns is in `1..=65535` and is not pending. -/
theorem drawIdentifier_some {t : PendingCommands} {rand : Nat → Nat} {fuel i re : Nat}
    (h : drawIdentifier t rand fuel i = some re) :
    1 ≤ re ∧ re ≤ 65535 ∧ t.contains re = false := by
  induction fuel generalizing i with
  | zero => simp [drawIdentifier] at h
  | succ fuel ih =>
    rw [drawIdentifier] at h
    split at h
    · exact ih h
    · rename_i hc
      injection h with h
      subst h
      refine ⟨by omega, by omega, by simpa using hc⟩

/-- Once the draw loop has returned, more draws do not change the result. -/
theorem drawIdentifier_mono {t : PendingCommands} {rand : Nat → Nat} {fuel i re : Nat}
    (h : drawIdentifier t rand fuel i = some re) (k : Nat) :
    drawIdentifier t rand (fuel + k) i = some re := by
  induction fuel generalizing i with
  | zero => simp [drawIdentifier] at h
  | succ fuel ih =>
    rw [drawIdentifier] at h
    rw [show fuel + 1 + k = (fuel + k) + 1 by omega, drawIdentifier]
    split at h
    · rename_i hc
      rw [if_pos hc]
      exact ih h
    · rename_i hc
      rw [if_neg hc]
      exact h

/-- The draw loop returns as soon as the random source yields a value that is not pending. -/
theorem drawIdentifier_terminates (t : PendingCommands) (rand : Nat → Nat) (j : Nat) :
    ∀ i, t.contains (rand (i + j) % 65535 + 1) = false →
      ∃ re, drawIdentifier t rand (j + 1) i = some re := by
  induction j with
  | zero =>
    intro i h
    refine ⟨rand i % 65535 + 1, ?_⟩
    rw [drawIdentifier]
    rw [Nat.add_zero] at h
    rw [if_neg (by simpa using h)]
  | succ j ih =>
    intro i h
    rw [drawIdentifier]
    split
    · exact ih (i + 1) (by rw [show i + 1 + j = i + (j + 1) by omega]; exact h)
    · exact ⟨_, rfl⟩

/-- When every draw hits a pending identifier the loop returns within no number of draws. -/
theorem drawIdentifier_never (t : PendingCommands) (rand : Nat → Nat)
    (h : ∀ i, t.contains (rand i % 65535 + 1) = true) (fuel i : Nat) :
    drawIdentifier t rand fuel i = none := by
  induction fuel generalizing i with
  | zero => rfl
  | succ fuel ih =>
    rw [drawIdentifier]
    rw [if_pos (h i)]
    exact ih (i + 1)

/-- The operation `send` reports `IdentifierSpaceExhausted` exactly at the ceiling. -/
theorem send_exhausted_iff (m : ProtocolManager) (commandBuffer : List Nat) (ordered : Bool)
    (rand : Nat → Nat) (fuel : Nat) :
    send m commandBuffer ordered rand fuel = .IdentifierSpaceExhausted
      ↔ 50000 ≤ m.pendingCommands.length := by
  unfold send getIdentifier
  by_cases h : m.pendingCommands.length ≥ 50000
  · simp [h]
  · simp only [h, if_false]
    constructor
    · intro hs
      exfalso
      cases hd : drawIdentifier m.pendingCommands rand fuel 0 with
      | none => simp [hd] at hs
      | some re =>
        have := (drawIdentifier_some hd).1
        obtain ⟨k, rfl⟩ : ∃ k, re = k + 1 := ⟨re - 1, by omega⟩
        simp only [hd] at hs
        split at hs <;> cases hs
    · intro h'
      exact absurd h' (by simp)

/-- The test `contains` is membership in the keys. -/
theorem contains_eq_true_iff (t : PendingCommands) (k : Nat) :
    t.contains k = true ↔ k ∈ t.keys := by
  simp [PendingCommands.contains, PendingCommands.keys]

/-- The test `contains` is false exactly for the identifiers that are not keys. -/
theorem contains_eq_false_iff (t : PendingCommands) (k : Nat) :
    t.contains k = false ↔ k ∉ t.keys := by
  rw [← contains_eq_true_iff]; simp

/-- Removing an entry keeps the keys distinct. -/
theorem remove_keys_nodup (t : PendingCommands) (k : Nat) (h : t.keys.Nodup) :
    (t.remove k).keys.Nodup :=
  List.Nodup.sublist (List.Sublist.map _ (List.filter_sublist _)) h

/-- A removed identifier is no longer a key. -/
theorem not_mem_remove_keys (t : PendingCommands) (k : Nat) : k ∉ (t.remove k).keys := by
  simp [PendingCommands.remove, PendingCommands.keys]

/-- The operation `QHash::insert` keeps the keys distinct. -/
theorem insert_keys_nodup (t : PendingCommands) (k : Nat) (c : ProtocolCommand)
    (h : t.keys.Nodup) : (t.insert k c).keys.Nodup := by
  have h1 := not_mem_remove_keys t k
  have h2 := remove_keys_nodup t k h
  simp only [PendingCommands.insert, PendingCommands.keys, List.map_cons, List.nodup_cons]
  exact ⟨h1, h2⟩

/-- Inserting under an identifier that is not pending replaces nothing. -/
theorem insert_of_not_contains (t : PendingCommands) (k : Nat) (c : ProtocolCommand)
    (h : t.contains k = false) : t.insert k c = (k, c) :: t := by
  unfold PendingCommands.insert
  congr 1
  rw [List.filter_eq_self]
  intro e he
  have : k ∉ t.keys := (contains_eq_false_iff t k).1 h
  simp only [PendingCommands.keys, List.mem_map, not_exists, not_and] at this
  have := this e he
  simpa using this

/-- What `sendCommand` does to the table when it returns. -/
theorem sendCommand_pending {m m1 : ProtocolManager} {c : ProtocolCommand} {ordered : Bool}
    (h : sendCommand m c ordered = .ok m1) :
    m.pendingCommands.contains c.identifier = false
    ∧ m1.pendingCommands = (c.identifier, c) :: m.pendingCommands := by
  cases hc : m.pendingCommands.contains c.identifier with
  | true => simp [sendCommand, hc] at h
  | false =>
    refine ⟨rfl, ?_⟩
    rw [← insert_of_not_contains _ _ c hc]
    cases ordered with
    | false => simp [sendCommand, hc] at h
    | true =>
      simp only [sendCommand, hc] at h
      simp only [Bool.false_eq_true, if_false, if_true] at h
      split at h
      · injection h with h; rw [← h]
      · split at h
        · cases h
        · injection h with h; rw [← h]

/-- With an identifier that is not pending the assertion of line 80 holds. -/
theorem sendCommand_not_pending {m : ProtocolManager} {c : ProtocolCommand} {ordered : Bool}
    (h : m.pendingCommands.contains c.identifier = false) :
    sendCommand m c ordered ≠ .error .IdentifierPending := by
  cases ordered with
  | false => simp [sendCommand, h]
  | true =>
    simp only [sendCommand, h]
    simp only [Bool.false_eq_true, if_false, if_true]
    split
    · simp
    · split <;> simp

/-- The slot `socketConnected` does not touch the table. -/
theorem socketConnected_pending {m m1 : ProtocolManager} {sender : Sender}
    (h : socketConnected m sender = .ok m1) : m1.pendingCommands = m.pendingCommands := by
  unfold socketConnected at h
  split at h
  · cases h
  · injection h with h; rw [← h]
  · injection h with h; rw [← h]

/-- The slot `socketConnected` does not reach the assertion of line 80. -/
theorem socketConnected_not_pending (m : ProtocolManager) (sender : Sender) :
    socketConnected m sender ≠ .error .IdentifierPending := by
  unfold socketConnected
  split <;> simp

/-- The function `connectPrimary` does not touch the table. -/
theorem connectPrimary_pending (m : ProtocolManager) :
    (connectPrimary m).pendingCommands = m.pendingCommands := by
  unfold connectPrimary
  split
  · split <;> rfl
  · rfl

/-- A successful `send` used an identifier in `1..=65535` that was not pending, and added
one entry on top of the table. -/
theorem send_sent {m m1 : ProtocolManager} {cb : List Nat} {ordered : Bool} {rand : Nat → Nat}
    {fuel id : Nat} (h : send m cb ordered rand fuel = .Sent id m1) :
    1 ≤ id ∧ id ≤ 65535 ∧ m.pendingCommands.contains id = false
    ∧ m1.pendingCommands = (id, ⟨id, cb⟩) :: m.pendingCommands := by
  unfold send at h
  split at h
  · cases h
  · cases h
  · rename_i k hk
    split at h
    · rename_i m2 hs
      injection h with h1 h2
      subst h1 h2
      have hp := sendCommand_pending hs
      have hg : drawIdentifier m.pendingCommands rand fuel 0 = some (k + 1) := by
        unfold getIdentifier at hk
        split at hk
        · cases hk
        · exact hk
      have hd := drawIdentifier_some hg
      exact ⟨hd.1, hd.2.1, hd.2.2, hp.2⟩
    · cases h

/-- A `send` never trips the assertion of line 80. -/
theorem send_not_pending (m : ProtocolManager) (cb : List Nat) (ordered : Bool)
    (rand : Nat → Nat) (fuel : Nat) :
    send m cb ordered rand fuel ≠ .Aborted .IdentifierPending := by
  unfold send
  split
  · simp
  · simp
  · rename_i k hk
    have hg : drawIdentifier m.pendingCommands rand fuel 0 = some (k + 1) := by
      unfold getIdentifier at hk
      split at hk
      · cases hk
      · exact hk
    have hd := drawIdentifier_some hg
    have hn := @sendCommand_not_pending m ⟨k + 1, cb⟩ ordered hd.2.2
    split
    · simp
    · rename_i e he
      intro h
      injection h with h
      subst h
      exact hn he

/-- Every operation keeps the keys of the table distinct. -/
theorem applyOp_invariant {m m1 : ProtocolManager} {op : Op}
    (hinv : m.pendingCommands.keys.Nodup) (h : applyOp m op = .ok m1) :
    m1.pendingCommands.keys.Nodup := by
  cases op with
  | Send cb rand fuel =>
    simp only [applyOp] at h
    split at h
    · rename_i id m2 hs
      injection h with h
      subst h
      have hp := send_sent hs
      rw [hp.2.2.2]
      simp only [PendingCommands.keys, List.map_cons, List.nodup_cons]
      exact ⟨(contains_eq_false_iff _ _).1 hp.2.2.1, hinv⟩
    · cases h
    · injection h with h; subst h; exact hinv
    · injection h with h; subst h; exact hinv
  | Resolve id =>
    simp only [applyOp] at h
    injection h with h
    subst h
    exact remove_keys_nodup _ _ hinv
  | ConnectPrimary =>
    simp only [applyOp] at h
    injection h with h
    subst h
    rw [connectPrimary_pending]; exact hinv
  | Connected =>
    simp only [applyOp, primaryConnectedEvent] at h
    rw [socketConnected_pending h]; exact hinv
  | Disconnected =>
    simp only [applyOp] at h
    injection h with h
    subst h
    exact hinv

/-- No operation trips the assertion of line 80. -/
theorem applyOp_not_pending (m : ProtocolManager) (op : Op) :
    applyOp m op ≠ .error .IdentifierPending := by
  cases op with
  | Send cb rand fuel =>
    simp only [applyOp]
    have hn := send_not_pending m cb true rand fuel
    split
    · simp
    · rename_i e he
      intro h
      injection h with h
      subst h
      exact hn he
    · simp
    · simp
  | Resolve id => simp [applyOp]
  | ConnectPrimary => simp [applyOp]
  | Connected => exact socketConnected_not_pending _ _
  | Disconnected => simp [applyOp]

/-- From a table with distinct keys, no sequence of operations trips the assertion of
line 80, and the keys stay distinct. -/
theorem applyOps_invariant (ops : List Op) :
    ∀ m : ProtocolManager, m.pendingCommands.keys.Nodup →
      applyOps m ops ≠ .error .IdentifierPending
      ∧ ∀ m1, applyOps m ops = .ok m1 → m1.pendingCommands.keys.Nodup := by
  induction ops with
  | nil =>
    intro m hinv
    refine ⟨by simp [applyOps], ?_⟩
    intro m1 h
    simp only [applyOps] at h
    injection h with h
    subst h
    exact hinv
  | cons op ops ih =>
    intro m hinv
    rw [applyOps]
    cases hop : applyOp m op with
    | ok m2 =>
      exact ih m2 (applyOp_invariant hinv hop)
    | error e =>
      refine ⟨?_, by intro m1 h; cases h⟩
      intro h
      injection h with h
      subst h
      exact applyOp_not_pending m op hop

/-- C5, as stated, fails for some random sources: with the single identifier 1 pending
(far below the ceiling) and a random source whose every draw is 0, every draw yields the
pending identifier 1, and `getIdentifier` returns nothing, however many draws it is given:
it neither fails nor returns an identifier. -/
theorem getIdentifier_never_returns :
    ([(1, (⟨1, []⟩ : ProtocolCommand))] : PendingCommands).length < 50000
    ∧ ∀ fuel, getIdentifier [(1, ⟨1, []⟩)] (fun _ => 0) fuel = none := by
  refine ⟨by decide, fun fuel => ?_⟩
  have hn : ¬ ([(1, (⟨1, []⟩ : ProtocolCommand))] : PendingCommands).length ≥ 50000 := by
    decide
  simp only [getIdentifier, hn, if_false]
  exact drawIdentifier_never _ _ (fun _ => by decide) fuel 0

/-- C5, amended. For every pending-command table and random source: with at least 50000
commands pending `getIdentifier` returns the reserved value 0; with fewer pending, whatever
it returns lies in `1..=65535` and is not a key of the table (so it is not 0), and if the
random source ever draws a value that is not pending it does return, the same identifier
for every larger number of draws; and `send` reports `IdentifierSpaceExhausted` if and only
if at least 50000 commands are pending. -/
theorem getIdentifier_at_ceiling (t : PendingCommands) (rand : Nat → Nat) :
    (50000 ≤ t.length → ∀ fuel, getIdentifier t rand fuel = some 0)
    ∧ (t.length < 50000 → ∀ fuel re, getIdentifier t rand fuel = some re →
        1 ≤ re ∧ re ≤ 65535 ∧ t.contains re = false)
    ∧ (t.length < 50000 → (∃ i, t.contains (rand i % 65535 + 1) = false) →
        ∃ fuel re, ∀ k, getIdentifier t rand (fuel + k) = some re)
    ∧ (∀ (m : ProtocolManager) (commandBuffer : List Nat) (ordered : Bool) (fuel : Nat),
        m.pendingCommands = t →
        (send m commandBuffer ordered rand fuel = .IdentifierSpaceExhausted
          ↔ 50000 ≤ t.length)) := by
  refine ⟨?_, ?_, ?_, ?_⟩
  · intro h fuel
    simp [getIdentifier, h]
  · intro h fuel re hre
    have hn : ¬ t.length ≥ 50000 := by omega
    simp only [getIdentifier, hn, if_false] at hre
    exact drawIdentifier_some hre
  · rintro h ⟨i, hi⟩
    have hn : ¬ t.length ≥ 50000 := by omega
    obtain ⟨re, hre⟩ := drawIdentifier_terminates t rand i 0 (by rw [Nat.zero_add]; exact hi)
    refine ⟨i + 1, re, fun k => ?_⟩
    simp only [getIdentifier, hn, if_false]
    exact drawIdentifier_mono hre k
  · rintro m cb ordered fuel rfl
    exact send_exhausted_iff m cb ordered rand fuel

/-- One pending identifier and the random source 0, 1, 2, ..: the second draw is free. -/
theorem getIdentifier_at_ceiling_witness :
    ∃ fuel re, ∀ k, getIdentifier [(1, ⟨1, []⟩)] (fun i => i) (fuel + k) = some re :=
  (getIdentifier_at_ceiling [(1, ⟨1, []⟩)] (fun i => i)).2.2.1 (by decide) ⟨1, by decide⟩

/-- C6. Identifier uniqueness: starting from the freshly constructed manager (empty table),
after any sequence of `send` operations (each with the identifier `getIdentifier` returns on
the current table), reply resolutions and socket events, the run never ends at the no-reuse
assertion of `sendCommand` (line 80), the identifiers in the table are pairwise distinct,
and a further `send` inserts under an identifier that is not pending, keeping every entry
that was there: no pending entry is overwritten. -/
theorem identifier_uniqueness (ops : List Op) :
    applyOps ProtocolManager.init ops ≠ .error .IdentifierPending
    ∧ (∀ m, applyOps ProtocolManager.init ops = .ok m →
        m.pendingCommands.keys.Nodup
        ∧ ∀ commandBuffer rand fuel identifier m1,
            send m commandBuffer true rand fuel = .Sent identifier m1 →
            m.pendingCommands.contains identifier = false
            ∧ m1.pendingCommands
                = (identifier, ⟨identifier, commandBuffer⟩) :: m.pendingCommands) := by
  have h := applyOps_invariant ops ProtocolManager.init
    (by simp [ProtocolManager.init, PendingCommands.keys])
  refine ⟨h.1, fun m hm => ⟨h.2 m hm, ?_⟩⟩
  intro cb rand fuel id m1 hs
  have hp := send_sent hs
  exact ⟨hp.2.2.1, hp.2.2.2⟩

/-- Two sends from the constructed manager, with a connection attempt in between; the second
send draws the pending identifier 1 first and then the free identifier 2. -/
theorem identifier_uniqueness_witness :
    (PendingCommands.keys [(2, ⟨2, [8]⟩), (1, ⟨1, [7]⟩)]).Nodup :=
  ((identifier_uniqueness [.Send [7] (fun i => i) 5, .ConnectPrimary, .Send [8] (fun i => i) 5]).2
    ⟨some ⟨.ConnectingState, [], []⟩, [(2, ⟨2, [8]⟩), (1, ⟨1, [7]⟩)], [⟨1, [7]⟩, ⟨2, [8]⟩], 0⟩
    rfl).1

/-! ## Theorems: the ordered queue -/

/-- The flush loop writes the buffers of the queued commands, in queue order, and changes
nothing else of the socket. -/
theorem flushQueue_written (queue : List ProtocolCommand) :
    ∀ s : QTcpSocket, (flushQueue queue s).written = s.written ++ commandBuffers queue
      ∧ (flushQueue queue s).state = s.state
      ∧ (flushQueue queue s).readBuffer = s.readBuffer := by
  induction queue with
  | nil => intro s; simp [flushQueue, commandBuffers]
  | cons c queue ih =>
    intro s
    obtain ⟨h1, h2, h3⟩ := ih (s.write c.commandBuffer)
    simp only [flushQueue, commandBuffers]
    refine ⟨?_, ?_, ?_⟩
    · rw [h1]; simp [QTcpSocket.write]
    · rw [h2]; rfl
    · rw [h3]; rfl

/-- The buffers of two lists of commands, one after the other. -/
theorem commandBuffers_append (xs ys : List ProtocolCommand) :
    commandBuffers (xs ++ ys) = commandBuffers xs ++ commandBuffers ys := by
  induction xs with
  | nil => rfl
  | cons c xs ih => simp [commandBuffers, ih]

/-- An ordered command sent while the primary socket is not connected is stored and queued;
the socket is not touched. -/
theorem sendCommand_queued (m : ProtocolManager) (c : ProtocolCommand)
    (hnc : m.isPrimaryConnected = false)
    (hfresh : m.pendingCommands.contains c.identifier = false) :
    sendCommand m c true
      = .ok { m with pendingCommands := (c.identifier, c) :: m.pendingCommands,
                     commandQueue := m.commandQueue ++ [c] } := by
  have hnc' : ∀ p q e, ProtocolManager.isPrimaryConnected ⟨m.primarySocket, p, q, e⟩ = false :=
    fun _ _ _ => hnc
  simp only [sendCommand, hfresh]
  simp [hnc', insert_of_not_contains _ _ c hfresh]

/-- Commands sent while the primary socket is not connected are appended to the queue in
submission order; the socket is not touched. -/
theorem sendCommands_queued (cs : List ProtocolCommand) :
    ∀ m : ProtocolManager, m.isPrimaryConnected = false →
      (∀ c ∈ cs, m.pendingCommands.contains c.identifier = false) →
      (cs.map ProtocolCommand.identifier).Nodup →
      ∃ m1, sendCommands m cs = .ok m1
        ∧ m1.primarySocket = m.primarySocket
        ∧ m1.commandQueue = m.commandQueue ++ cs
        ∧ m1.pendingCommands.keys
            = (cs.map ProtocolCommand.identifier).reverse ++ m.pendingCommands.keys := by
  induction cs with
  | nil =>
    intro m _ _ _
    exact ⟨m, rfl, rfl, by simp, by simp⟩
  | cons c cs ih =>
    intro m hnc hfresh hnd
    have hc := hfresh c (List.mem_cons_self _ _)
    rw [List.map_cons, List.nodup_cons] at hnd
    rw [sendCommands, sendCommand_queued m c hnc hc]
    simp only
    obtain ⟨m1, h1, h2, h3, h4⟩ := ih
      { m with pendingCommands := (c.identifier, c) :: m.pendingCommands,
               commandQueue := m.commandQueue ++ [c] }
      hnc
      (by
        intro c' hc'
        have h' := hfresh c' (List.mem_cons_of_mem _ hc')
        rw [contains_eq_false_iff] at h' ⊢
        simp only [PendingCommands.keys, List.map_cons, List.mem_cons, not_or]
        refine ⟨?_, h'⟩
        intro heq
        exact hnd.1 (heq ▸ List.mem_map_of_mem _ hc'))
      hnd.2
    refine ⟨m1, h1, h2, ?_, ?_⟩
    · rw [h3]; simp
    · rw [h4]; simp [PendingCommands.keys]

/-- On connection the queue is written out in order and emptied; the table is kept. -/
theorem primaryConnectedEvent_flush (m : ProtocolManager) (s : QTcpSocket)
    (hs : m.primarySocket = some s) :
    ∃ m1, primaryConnectedEvent m = .ok m1
      ∧ m1.written = s.written ++ commandBuffers m.commandQueue
      ∧ m1.commandQueue = []
      ∧ m1.pendingCommands = m.pendingCommands
      ∧ m1.isPrimaryConnected = true := by
  have h := flushQueue_written m.commandQueue { s with state := .ConnectedState }
  refine ⟨⟨some (flushQueue m.commandQueue { s with state := .ConnectedState }),
      m.pendingCommands, [], m.primaryConnectedEmitted + 1⟩,
    by simp [primaryConnectedEvent, socketConnected, hs], ?_, rfl, rfl, ?_⟩
  · simp [ProtocolManager.written, h.1]
  · simp [ProtocolManager.isPrimaryConnected, h.2.1]

/-- After `connectPrimary` there is a primary socket; the bytes written, the queue and the
table are as before. -/
theorem connectPrimary_socket (m : ProtocolManager) :
    ∃ s, (connectPrimary m).primarySocket = some s
      ∧ s.written = m.written
      ∧ (connectPrimary m).commandQueue = m.commandQueue
      ∧ (connectPrimary m).pendingCommands = m.pendingCommands := by
  cases hs : m.primarySocket with
  | none =>
    exact ⟨_, by simp [connectPrimary, hs]; rfl,
      by simp [ProtocolManager.written, hs, QTcpSocket.fresh],
      by simp [connectPrimary, hs], by simp [connectPrimary, hs]⟩
  | some s =>
    by_cases hst : s.state = .UnconnectedState
    · exact ⟨_, by simp [connectPrimary, hs, hst]; rfl,
        by simp [ProtocolManager.written, hs],
        by simp [connectPrimary, hs, hst], by simp [connectPrimary, hs, hst]⟩
    · have hm : connectPrimary m = m := by simp [connectPrimary, hs, hst]
      exact ⟨s, by rw [hm, hs], by simp [ProtocolManager.written, hs],
        by rw [hm], by rw [hm]⟩

/-- C7. Ordered delivery: for every manager whose primary socket is not connected (there may
be no socket yet, as after construction) and every sequence of ordered commands with
pairwise distinct identifiers that are not pending, submitting them through `sendCommand`
writes nothing and appends them to the queue in submission order; when the connection is
then established (`connectPrimary`, then the connect event) `socketConnected` writes exactly
the buffers of the queued commands, in order, each once, and leaves the queue empty. With
the queue empty beforehand these bytes are exactly
`commandBuffer(c1) ++ ... ++ commandBuffer(cn)`. When the socket exists already, the connect
event alone does the same. -/
theorem ordered_delivery (m : ProtocolManager) (cs : List ProtocolCommand)
    (hnc : m.isPrimaryConnected = false)
    (hfresh : ∀ c ∈ cs, m.pendingCommands.contains c.identifier = false)
    (hdistinct : (cs.map ProtocolCommand.identifier).Nodup) :
    ∃ m1 m2, sendCommands m cs = .ok m1
      ∧ m1.written = m.written
      ∧ m1.commandQueue = m.commandQueue ++ cs
      ∧ primaryConnectedEvent (connectPrimary m1) = .ok m2
      ∧ m2.isPrimaryConnected = true
      ∧ m2.written = m.written ++ commandBuffers (m.commandQueue ++ cs)
      ∧ m2.commandQueue = []
      ∧ (m.commandQueue = [] →
          m1.commandQueue = cs ∧ m2.written = m.written ++ commandBuffers cs)
      ∧ (∀ s, m.primarySocket = some s →
          ∃ m3, primaryConnectedEvent m1 = .ok m3
            ∧ m3.isPrimaryConnected = true
            ∧ m3.written = m.written ++ commandBuffers (m.commandQueue ++ cs)
            ∧ m3.commandQueue = []) := by
  obtain ⟨m1, h1, h2, h3, _⟩ := sendCommands_queued cs m hnc hfresh hdistinct
  have hw : m1.written = m.written := by simp [ProtocolManager.written, h2]
  obtain ⟨s1, hs1, hw1, hq1, _⟩ := connectPrimary_socket m1
  obtain ⟨m2, h4, h5, h6, _, h7⟩ := primaryConnectedEvent_flush (connectPrimary m1) s1 hs1
  refine ⟨m1, m2, h1, hw, h3, h4, h7, ?_, h6, ?_, ?_⟩
  · rw [h5, hw1, hw, hq1, h3]
  · intro hq
    rw [hq, List.nil_append] at h3
    refine ⟨h3, ?_⟩
    rw [h5, hw1, hw, hq1, h3]
  · intro s hs
    obtain ⟨m3, g1, g2, g3, _, g4⟩ := primaryConnectedEvent_flush m1 s (by rw [h2, hs])
    refine ⟨m3, g1, g4, ?_, g3⟩
    rw [g2, h3]
    simp [ProtocolManager.written, hs]

/-- Two commands sent to the freshly constructed manager, which has no socket yet; then the
connection. -/
theorem ordered_delivery_witness :
    ∃ m1 m2, sendCommands ProtocolManager.init [⟨1, [10]⟩, ⟨2, [20, 21]⟩] = .ok m1
      ∧ m1.commandQueue = [⟨1, [10]⟩, ⟨2, [20, 21]⟩]
      ∧ primaryConnectedEvent (connectPrimary m1) = .ok m2
      ∧ m2.isPrimaryConnected = true
      ∧ m2.written = ProtocolManager.init.written ++ commandBuffers [⟨1, [10]⟩, ⟨2, [20, 21]⟩]
      ∧ m2.commandQueue = [] :=
  match ordered_delivery ProtocolManager.init [⟨1, [10]⟩, ⟨2, [20, 21]⟩] rfl (by decide)
      (by decide) with
  | ⟨m1, m2, h1, _, _, h4, h5, _, h7, h8, _⟩ => ⟨m1, m2, h1, (h8 rfl).1, h4, h5, (h8 rfl).2, h7⟩

/-- After the disconnect event `connectPrimary` starts a new attempt on the same socket. -/
theorem connectPrimary_after_disconnect (m : ProtocolManager) (s : QTcpSocket)
    (hs : m.primarySocket = some s) :
    connectPrimary (primaryDisconnectedEvent m)
      = { m with primarySocket := some { s with state := .ConnectingState } } := by
  simp [connectPrimary, primaryDisconnectedEvent, socketDisconnected, hs]

/-- C8, as stated, fails: on a connected manager the ordered command 7 is written at once
and is pending; after the disconnect and the reconnect it is still pending, and no byte has
been written on the new connection: the command is not retransmitted. -/
theorem pending_command_not_retransmitted :
    ∃ m1 m2,
      sendCommand ⟨some ⟨.ConnectedState, [], []⟩, [], [], 1⟩ ⟨7, [0, 1, 1, 0, 0, 7]⟩ true = .ok m1
      ∧ m1.written = [0, 1, 1, 0, 0, 7]
      ∧ m1.pendingCommands.contains 7 = true
      ∧ reconnect m1 = .ok m2
      ∧ m2.isPrimaryConnected = true
      ∧ m2.pendingCommands.contains 7 = true
      ∧ m2.written.drop m1.written.length = [] := by
  refine ⟨_, _, rfl, ?_, ?_, rfl, ?_, ?_, ?_⟩ <;> decide

/-- C8, amended. For every manager with a primary socket, the disconnect event changes
neither the pending-command table nor the queue (`socketDisconnected` only logs), and the
reconnect writes exactly the buffers of the commands that are in the queue, in order, once,
and empties the queue; the table is unchanged. Commands that were written while connected
are not in the queue and are not written again. -/
theorem reconnect_writes_queue_only (m : ProtocolManager) (s : QTcpSocket)
    (hs : m.primarySocket = some s) :
    (primaryDisconnectedEvent m).pendingCommands = m.pendingCommands
    ∧ (primaryDisconnectedEvent m).commandQueue = m.commandQueue
    ∧ ∃ m1, reconnect m = .ok m1
      ∧ m1.written = m.written ++ commandBuffers m.commandQueue
      ∧ m1.pendingCommands = m.pendingCommands
      ∧ m1.commandQueue = [] := by
  refine ⟨rfl, rfl, ?_⟩
  unfold reconnect
  rw [connectPrimary_after_disconnect m s hs]
  obtain ⟨m1, h1, h2, h3, h4, _⟩ := primaryConnectedEvent_flush
    { m with primarySocket := some { s with state := .ConnectingState } }
    { s with state := .ConnectingState } rfl
  refine ⟨m1, h1, ?_, h4, h3⟩
  rw [h2]; simp [ProtocolManager.written, hs]

/-- A connected manager with command 7 written and pending: the reconnect writes nothing. -/
theorem reconnect_writes_queue_only_witness :
    ∃ m1, reconnect ⟨some ⟨.ConnectedState, [], [9]⟩, [(7, ⟨7, [9]⟩)], [], 1⟩ = .ok m1
      ∧ m1.written = [9] ++ commandBuffers []
      ∧ m1.pendingCommands = [(7, ⟨7, [9]⟩)]
      ∧ m1.commandQueue = [] :=
  (reconnect_writes_queue_only ⟨some ⟨.ConnectedState, [], [9]⟩, [(7, ⟨7, [9]⟩)], [], 1⟩
    ⟨.ConnectedState, [], [9]⟩ rfl).2.2

/-! ## Theorems: the contact request -/

/-- An error flag that is set stays set. -/
theorem writeVariableData_error (p : CommandDataParser) (bytes : List Nat)
    (h : p.error = true) : (p.writeVariableData bytes).error = true := by
  unfold CommandDataParser.writeVariableData
  split <;> simp [h]

/-- A length-prefixed write that leaves the error flag clear found it clear and appended
the prefix and the bytes. -/
theorem writeVariableData_ok {p : CommandDataParser} {bytes : List Nat}
    (h : (p.writeVariableData bytes).error = false) :
    p.error = false
    ∧ (p.writeVariableData bytes).data = p.data ++ (toBe16 bytes.length ++ bytes) := by
  unfold CommandDataParser.writeVariableData at h ⊢
  split at h
  · simp at h
  · rename_i hl
    simp only [hl, if_false]
    exact ⟨h, by simp⟩

/-- What `buildRequestData` writes when it succeeds: the buffer starts with the signature
field of line 121, whose first two bytes the length of line 137 overwrites; the placeholder
of line 124 and the documented fields follow it. -/
theorem buildRequestData_written (sv : HiddenService) (c c1 : ContactRequestClient)
    (cookie : List Nat)
    (h : buildRequestData (some sv) c cookie = (.Returned true none, c1)) :
    ∃ publicKey signature,
      sv.cryptoKey.encodedPublicKey = some publicKey
      ∧ sv.cryptoKey.signData cookie = some signature
      ∧ c1.socket.written = c.socket.written ++ patchLength
          ((toBe16 signature.length ++ signature) ++ toBe16 0
            ++ toLatin1 (localHostname (some sv))
            ++ (toBe16 publicKey.length ++ publicKey)
            ++ (toBe16 signature.length ++ signature)
            ++ (toBe16 c.m_mynick.length ++ c.m_mynick)
            ++ (toBe16 c.m_message.length ++ c.m_message)) := by
  unfold buildRequestData at h
  simp only at h
  split at h
  · cases h
  · split at h
    · cases h
    · cases hpub : sv.cryptoKey.encodedPublicKey with
      | none => simp [hpub] at h
      | some publicKey =>
        cases hsig : sv.cryptoKey.signData cookie with
        | none => simp [hpub, hsig] at h
        | some signature =>
          simp only [hpub, hsig] at h
          split at h
          · cases h
          · rename_i herr
            have herr' := Bool.eq_false_iff.mpr herr
            obtain ⟨e4, d4⟩ := writeVariableData_ok herr'
            obtain ⟨e3, d3⟩ := writeVariableData_ok e4
            obtain ⟨e2, d2⟩ := writeVariableData_ok e3
            obtain ⟨e1, d1⟩ := writeVariableData_ok
              (show (CommandDataParser.writeVariableData _ publicKey).error = false from e2)
            have e0 : (CommandDataParser.writeVariableData ⟨[], false⟩ signature).error
                = false := e1
            obtain ⟨_, d0⟩ := writeVariableData_ok e0
            refine ⟨publicKey, signature, rfl, rfl, ?_⟩
            injection h with _ h
            rw [← h]
            simp only [QTcpSocket.write]
            rw [d4, d3, d2, d1]
            simp only [CommandDataParser.writeFixedData, CommandDataParser.writeU16, d0]
            simp

/-- The check of line 92: with a hostname that is not 16 code units long `buildRequestData`
warns, returns false and leaves the client, its socket included, as it was. -/
theorem buildRequestData_hostname_guard (service : Option HiddenService)
    (c : ContactRequestClient) (cookie : List Nat)
    (h : (localHostname service).length ≠ 16) :
    buildRequestData service c cookie = (.Returned false (some .LocalHostnameInvalid), c) := by
  unfold buildRequestData
  simp only [h, ne_eq, not_false_eq_true, if_true]

/-- In `WaitCookie` with a cookie available and a hostname that is not 16 code units long,
`socketReadable` reads the cookie, writes nothing and closes the socket. -/
theorem socketReadable_hostname_guard (service : Option HiddenService)
    (c : ContactRequestClient) (unspecified : Bool) (hstate : c.state = .WaitCookie)
    (havail : 16 ≤ c.socket.readBuffer.length)
    (hhost : (localHostname service).length ≠ 16) :
    c.socketReadable service unspecified
      = (some (.Returned false (some .LocalHostnameInvalid)),
         ⟨.WaitCookie, ⟨.UnconnectedState, c.socket.readBuffer.drop 16, c.socket.written⟩,
          c.m_mynick, c.m_message⟩) := by
  have hn : ¬ c.socket.readBuffer.length < 16 := by omega
  unfold ContactRequestClient.socketReadable
  simp only [hstate, hn, if_false]
  rw [buildRequestData_hostname_guard service _ _ hhost]
  simp [QTcpSocket.close]

/-- C9 fails on the code. With the hostname `abcdefghijklmnop.onion`, the public key 1, the
signature 2, an empty nickname and an empty message, `buildRequestData` succeeds and writes
31 bytes: the length 31, then the signature byte 2 of a signature field whose length prefix
the length has overwritten, then the two placeholder bytes 0 0, and only then the hostname,
the public key, the signature, the nickname and the message. The documented layout of the
same fields is 28 bytes: the length, the hostname and the four length-prefixed fields. -/
theorem request_layout_violated :
    (buildRequestData
        (some ⟨utf16 ['a', 'b', 'c', 'd', 'e', 'f', 'g', 'h', 'i', 'j', 'k', 'l', 'm', 'n', 'o',
                'p', '.', 'o', 'n', 'i', 'o', 'n'], ⟨true, some [1], fun _ => some [2]⟩⟩)
        ⟨.WaitCookie, ⟨.ConnectedState, [], []⟩, [], []⟩ (List.replicate 16 0)).1
      = .Returned true none
    ∧ (buildRequestData
        (some ⟨utf16 ['a', 'b', 'c', 'd', 'e', 'f', 'g', 'h', 'i', 'j', 'k', 'l', 'm', 'n', 'o',
                'p', '.', 'o', 'n', 'i', 'o', 'n'], ⟨true, some [1], fun _ => some [2]⟩⟩)
        ⟨.WaitCookie, ⟨.ConnectedState, [], []⟩, [], []⟩ (List.replicate 16 0)).2.socket.written
      = [0, 31, 2, 0, 0, 97, 98, 99, 100, 101, 102, 103, 104, 105, 106, 107, 108, 109, 110, 111,
         112, 0, 1, 1, 0, 1, 2, 0, 0, 0, 0]
    ∧ requestLayout
        [97, 98, 99, 100, 101, 102, 103, 104, 105, 106, 107, 108, 109, 110, 111, 112]
        [1] [2] [] []
      = [0, 28, 97, 98, 99, 100, 101, 102, 103, 104, 105, 106, 107, 108, 109, 110, 111,
         112, 0, 1, 1, 0, 1, 2, 0, 0, 0, 0]
    ∧ (buildRequestData
        (some ⟨utf16 ['a', 'b', 'c', 'd', 'e', 'f', 'g', 'h', 'i', 'j', 'k', 'l', 'm', 'n', 'o',
                'p', '.', 'o', 'n', 'i', 'o', 'n'], ⟨true, some [1], fun _ => some [2]⟩⟩)
        ⟨.WaitCookie, ⟨.ConnectedState, [], []⟩, [], []⟩ (List.replicate 16 0)).2.socket.written
      ≠ requestLayout
        [97, 98, 99, 100, 101, 102, 103, 104, 105, 106, 107, 108, 109, 110, 111, 112]
        [1] [2] [] [] := by
  refine ⟨by decide, by decide, by decide, by decide⟩

/-- The hostname guard counts UTF-16 code units, as `QString::size()` does: a hostname of 14
letters and one character above U+FFFF before `.onion` has 16 units and passes the check of
line 92. -/
theorem localHostname_counts_code_units :
    (localHostname (some ⟨utf16 ['a', 'b', 'c', 'd', 'e', 'f', 'g', 'h', 'i', 'j', 'k', 'l',
        'm', 'n', Char.ofNat 128512, '.', 'o', 'n', 'i', 'o', 'n'],
        ⟨true, some [1], fun _ => some [2]⟩⟩)).length = 16 := by
  decide

/-- C10, as stated, fails: in the session of a client whose local hostname is `abc.onion`
(3 code units once truncated), the socket is connected and holds the cookie, the request
fails at the hostname check, and the bytes written to the socket are not zero: the
introduction byte 0x80 that `socketConnected` wrote before the cookie arrived. -/
theorem hostname_guard_bytes_on_socket :
    (localHostname (some ⟨utf16 ['a', 'b', 'c', '.', 'o', 'n', 'i', 'o', 'n'],
        ⟨true, some [1], fun _ => some [2]⟩⟩)).length ≠ 16
    ∧ ((((ContactRequestClient.init [] []).sendRequest true).connectedEvent).receive
        (List.replicate 16 0)).socket.state = .ConnectedState
    ∧ (((((ContactRequestClient.init [] []).sendRequest true).connectedEvent).receive
          (List.replicate 16 0)).socketReadable
        (some ⟨utf16 ['a', 'b', 'c', '.', 'o', 'n', 'i', 'o', 'n'],
          ⟨true, some [1], fun _ => some [2]⟩⟩)
        true).1 = some (.Returned false (some .LocalHostnameInvalid))
    ∧ (((((ContactRequestClient.init [] []).sendRequest true).connectedEvent).receive
          (List.replicate 16 0)).socketReadable
        (some ⟨utf16 ['a', 'b', 'c', '.', 'o', 'n', 'i', 'o', 'n'],
          ⟨true, some [1], fun _ => some [2]⟩⟩)
        true).2.socket.written = [0x80] := by
  refine ⟨by decide, by decide, by decide, by decide⟩

/-- C10, amended. For every local service (or none) whose hostname, truncated at its last
`.`, is not exactly 16 UTF-16 code units long (`hostname.size() != 16`):
`buildRequestData` fails with the warning of the hostname check and leaves the client and
its socket as they were, writing zero bytes; for every client in `WaitCookie` with at least
16 bytes available, whatever the state of its socket, `socketReadable` reads the cookie,
fails in this way, writes nothing, leaves the state `WaitCookie` and closes the socket; and
in every session (construction, `sendRequest`, the connect event, at least 16 bytes
received) the socket is connected before `socketReadable` runs and closed after it, and
the bytes written to the socket are exactly the introduction data that `socketConnected`
wrote. -/
theorem hostname_guard (service : Option HiddenService) (nick message bytes : List Nat)
    (unspecified : Bool) (havail : 16 ≤ bytes.length)
    (hhost : (localHostname service).length ≠ 16) :
    (∀ (c : ContactRequestClient) (cookie : List Nat),
      buildRequestData service c cookie = (.Returned false (some .LocalHostnameInvalid), c))
    ∧ (∀ c : ContactRequestClient, c.state = .WaitCookie → 16 ≤ c.socket.readBuffer.length →
        c.socketReadable service unspecified
          = (some (.Returned false (some .LocalHostnameInvalid)),
             ⟨.WaitCookie, ⟨.UnconnectedState, c.socket.readBuffer.drop 16, c.socket.written⟩,
              c.m_mynick, c.m_message⟩))
    ∧ ((((ContactRequestClient.init nick message).sendRequest true).connectedEvent).receive
          bytes)
        = ⟨.WaitCookie, ⟨.ConnectedState, bytes, introData 0x80⟩, nick, message⟩
    ∧ ((((ContactRequestClient.init nick message).sendRequest true).connectedEvent).receive
          bytes).socketReadable service unspecified
        = (some (.Returned false (some .LocalHostnameInvalid)),
           ⟨.WaitCookie, ⟨.UnconnectedState, bytes.drop 16, introData 0x80⟩, nick, message⟩) := by
  have hsession :
      ((((ContactRequestClient.init nick message).sendRequest true).connectedEvent).receive
          bytes)
        = ⟨.WaitCookie, ⟨.ConnectedState, bytes, introData 0x80⟩, nick, message⟩ := by
    simp [ContactRequestClient.receive, ContactRequestClient.connectedEvent,
      ContactRequestClient.sendRequest, ContactRequestClient.socketConnected,
      ContactRequestClient.init, QTcpSocket.write, QTcpSocket.fresh]
  refine ⟨fun c cookie => buildRequestData_hostname_guard service c cookie hhost,
    fun c hstate hn => socketReadable_hostname_guard service c unspecified hstate hn hhost,
    hsession, ?_⟩
  rw [hsession, socketReadable_hostname_guard service _ unspecified rfl havail hhost]

/-- A session without a local hidden service: the socket is connected when the cookie is
there, and closed once the request has failed. -/
theorem hostname_guard_witness :
    ((((ContactRequestClient.init [] []).sendRequest true).connectedEvent).receive
          (List.replicate 16 0))
        = ⟨.WaitCookie, ⟨.ConnectedState, List.replicate 16 0, introData 0x80⟩, [], []⟩
    ∧ ((((ContactRequestClient.init [] []).sendRequest true).connectedEvent).receive
          (List.replicate 16 0)).socketReadable none true
        = (some (.Returned false (some .LocalHostnameInvalid)),
           ⟨.WaitCookie, ⟨.UnconnectedState, (List.replicate 16 0).drop 16, introData 0x80⟩,
            [], []⟩) :=
  (hostname_guard none [] [] (List.replicate 16 0) true (by decide) (by decide)).2.2

/-! ## Theorems: the hand-off queue -/

/-- Pushing callbacks appends them to `taskQueue` in the order of the pushes. -/
theorem push_tasks_queue (tasks : List Task) :
    ∀ st : TaskState, push_tasks st tasks = { st with taskQueue := st.taskQueue ++ tasks } := by
  induction tasks with
  | nil => intro st; simp [push_tasks]
  | cons t tasks ih =>
    intro st
    rw [push_tasks, ih]
    simp [push_task]

/-- When no callback throws an object that the handler does not catch, the loop runs every
callback in order, logs those that throw, and runs to its end. -/
theorem runTasks_caught (tasks : List Task) :
    ∀ st : TaskState, (∀ t ∈ tasks, t.ending ≠ .ThrowsOther) →
      runTasks tasks st
        = (true, { st with
            ran := st.ran ++ tasks.map Task.id,
            logged := st.logged
              ++ (tasks.filter (fun t => t.ending = .ThrowsStdException)).map Task.id }) := by
  induction tasks with
  | nil => intro st _; simp [runTasks]
  | cons t tasks ih =>
    intro st h
    have ht := h t (List.mem_cons_self _ _)
    have hts : ∀ t' ∈ tasks, t'.ending ≠ .ThrowsOther :=
      fun t' ht' => h t' (List.mem_cons_of_mem _ ht')
    rw [runTasks]
    cases he : t.ending with
    | Returns => simp [ih _ hts, he]
    | ThrowsStdException => simp [ih _ hts, he]
    | ThrowsOther => exact absurd he ht

/-- The loop is left at the first callback that throws an object the handler does not
catch: the callbacks after it are not run. -/
theorem runTasks_uncaught (before after : List Task) (t : Task) :
    ∀ st : TaskState, (∀ t' ∈ before, t'.ending ≠ .ThrowsOther) → t.ending = .ThrowsOther →
      runTasks (before ++ t :: after) st
        = (false, { st with
            ran := st.ran ++ before.map Task.id ++ [t.id],
            logged := st.logged
              ++ (before.filter (fun t => t.ending = .ThrowsStdException)).map Task.id }) := by
  induction before with
  | nil => intro st _ ht; simp [runTasks, ht]
  | cons b before ih =>
    intro st h ht
    have hb := h b (List.mem_cons_self _ _)
    have hbs : ∀ t' ∈ before, t'.ending ≠ .ThrowsOther :=
      fun t' ht' => h t' (List.mem_cons_of_mem _ ht')
    rw [List.cons_append, runTasks]
    cases he : b.ending with
    | Returns => simp [ih _ hbs ht, he]
    | ThrowsStdException => simp [ih _ hbs ht, he]
    | ThrowsOther => exact absurd he hb

/-- C11, as stated, fails: with callback 1, which throws an object whose type is not derived
from `std::exception`, pushed before callback 2, one call of `consume_tasks` runs callback 1
only; the exception leaves `consume_tasks`, callback 2 is not run and both callbacks stay in
`localTaskQueue`. -/
theorem uncaught_stops_the_queue :
    consume_tasks (push_tasks TaskState.init [⟨1, .ThrowsOther⟩, ⟨2, .Returns⟩])
      = (false, ⟨[], [⟨1, .ThrowsOther⟩, ⟨2, .Returns⟩], [1], []⟩) := by
  decide

/-- C11, amended. For every sequence of callbacks pushed with `push_task` onto empty queues,
in which any subset throws an exception of a class derived from `std::exception` and no
callback throws an object of another type, one call of `consume_tasks` returns, has run
every queued callback in the order it was pushed, has logged exactly the callbacks that
threw, in order, and leaves both queues empty. -/
theorem consume_tasks_in_order (st : TaskState) (tasks : List Task)
    (hq : st.taskQueue = []) (hl : st.localTaskQueue = [])
    (h : ∀ t ∈ tasks, t.ending ≠ .ThrowsOther) :
    consume_tasks (push_tasks st tasks)
      = (true, ⟨[], [], st.ran ++ tasks.map Task.id,
          st.logged ++ (tasks.filter (fun t => t.ending = .ThrowsStdException)).map Task.id⟩) := by
  rw [push_tasks_queue, hq, List.nil_append]
  unfold consume_tasks
  simp only [hl]
  rw [runTasks_caught tasks _ h]

/-- Three callbacks, the second of which throws a `std::exception`. -/
theorem consume_tasks_in_order_witness :
    consume_tasks (push_tasks TaskState.init
        [⟨1, .Returns⟩, ⟨2, .ThrowsStdException⟩, ⟨3, .Returns⟩])
      = (true, ⟨[], [], TaskState.init.ran
            ++ [⟨1, .Returns⟩, ⟨2, .ThrowsStdException⟩, ⟨3, .Returns⟩].map Task.id,
          TaskState.init.logged
            ++ (([⟨1, .Returns⟩, ⟨2, .ThrowsStdException⟩, ⟨3, .Returns⟩] : List Task).filter
                (fun t => t.ending = .ThrowsStdException)).map Task.id⟩) :=
  consume_tasks_in_order TaskState.init
    [⟨1, .Returns⟩, ⟨2, .ThrowsStdException⟩, ⟨3, .Returns⟩] rfl rfl (by decide)

/-! ## Theorems: several frames in one read, and the connection attempt -/

/-- The loop on the concatenation of valid encoded frames dispatches them one after the
other and ends on the empty buffer. -/
theorem encodeFrames_readLoop (frames : List WireFrame) :
    ∀ calls : List Call, (∀ f ∈ frames, f.valid) →
      readLoop (encodeFrames frames).length (encodeFrames frames) calls
        = ⟨calls ++ frames.map WireFrame.call, [], .Incomplete⟩ := by
  induction frames with
  | nil =>
    intro calls _
    have h : readFrame ([] : List Nat).length [] = .Incomplete := readFrame_short _ (by simp)
    simp only [encodeFrames, List.map_nil, List.append_nil]
    rw [readLoop_stop _ (by intro call n; rw [h]; simp), h]
  | cons f frames ih =>
    intro calls hv
    obtain ⟨_, _, hid, hlen⟩ := hv f (List.mem_cons_self _ _)
    have hvs : ∀ g ∈ frames, g.valid := fun g hg => hv g (List.mem_cons_of_mem _ hg)
    have hl : f.encode.length = f.payload.length + 6 := encodeFrame_length _ _ _ _
    have h : readFrame (f.encode ++ encodeFrames frames).length
        (f.encode ++ encodeFrames frames) = .Frame f.call (f.payload.length + 6) :=
      readFrame_encode f.command f.flags f.identifier f.payload (encodeFrames frames)
        (f.encode ++ encodeFrames frames).length hid hlen
        (by rw [List.length_append, hl]; omega)
    have hd : (f.encode ++ encodeFrames frames).drop (f.payload.length + 6)
        = encodeFrames frames := by
      rw [← hl]; exact List.drop_left _ _
    have ha : (f.encode ++ encodeFrames frames).length - (f.payload.length + 6)
        = (encodeFrames frames).length := by
      rw [List.length_append, hl]; omega
    simp only [encodeFrames]
    rw [readLoop_frame calls h, hd, ha, ih _ hvs]
    simp

/-- C12. Frames are dispatched in byte order: for every list of valid frames, `socketReadable`
on the concatenation of their encodings makes exactly one `callCommand` call per frame, in
the order of the frames, each with the command, flags, identifier, payload length and bytes
of its frame; every byte is consumed and the loop ends as `Incomplete` on the empty buffer. -/
theorem frames_dispatched_in_order (frames : List WireFrame) (hv : ∀ f ∈ frames, f.valid) :
    socketReadable (encodeFrames frames) = ⟨frames.map WireFrame.call, [], .Incomplete⟩ := by
  unfold socketReadable
  rw [encodeFrames_readLoop frames [] hv, List.nil_append]

/-- Three frames in one read. -/
theorem frames_dispatched_in_order_witness :
    socketReadable (encodeFrames [⟨1, 2, 300, [7, 8, 9]⟩, ⟨3, 4, 5, []⟩, ⟨1, 0, 65535, [0]⟩])
      = ⟨[⟨1, 2, 300, [7, 8, 9]⟩, ⟨3, 4, 5, []⟩, ⟨1, 0, 65535, [0]⟩].map WireFrame.call, [],
          .Incomplete⟩ :=
  frames_dispatched_in_order [⟨1, 2, 300, [7, 8, 9]⟩, ⟨3, 4, 5, []⟩, ⟨1, 0, 65535, [0]⟩]
    (by decide)

/-- C13. At most one connection attempt: when the primary socket exists and is not in
`UnconnectedState`, `connectPrimary` changes nothing and makes no `connectToHost` call; when
the socket is in `UnconnectedState`, or there is none yet (then it is created), it makes one
`connectToHost` call with the configured host and port and the socket moves to
`ConnectingState`, nothing else changing; and a second `connectPrimary` right after makes no
further attempt. -/
theorem connect_at_most_once (m : ProtocolManager) (pHost : List Char) (pPort : Nat) :
    (∀ s, m.primarySocket = some s → s.state ≠ .UnconnectedState →
      connectPrimary m = m ∧ connectPrimaryAttempt m pHost pPort = none)
    ∧ (∀ s, m.primarySocket = some s → s.state = .UnconnectedState →
      connectPrimary m = { m with primarySocket := some { s with state := .ConnectingState } }
      ∧ connectPrimaryAttempt m pHost pPort = some (pHost, pPort))
    ∧ (m.primarySocket = none →
      connectPrimary m
        = { m with primarySocket := some { QTcpSocket.fresh with state := .ConnectingState } }
      ∧ connectPrimaryAttempt m pHost pPort = some (pHost, pPort))
    ∧ (connectPrimaryAttempt (connectPrimary m) pHost pPort = none) := by
  refine ⟨?_, ?_, ?_, ?_⟩
  · intro s hs hst
    simp [connectPrimary, connectPrimaryAttempt, hs, hst]
  · intro s hs hst
    simp [connectPrimary, connectPrimaryAttempt, hs, hst]
  · intro hs
    simp [connectPrimary, connectPrimaryAttempt, hs]
  · cases hs : m.primarySocket with
    | none => simp [connectPrimary, connectPrimaryAttempt, hs]
    | some s =>
      by_cases hst : s.state = .UnconnectedState
      · simp [connectPrimary, connectPrimaryAttempt, hs, hst]
      · simp [connectPrimary, connectPrimaryAttempt, hs, hst]

/-- A manager whose primary socket is connecting. -/
theorem connect_at_most_once_witness :
    connectPrimary ⟨some ⟨.ConnectingState, [], []⟩, [], [], 0⟩
        = ⟨some ⟨.ConnectingState, [], []⟩, [], [], 0⟩
    ∧ connectPrimaryAttempt ⟨some ⟨.ConnectingState, [], []⟩, [], [], 0⟩ ['h'] 9878 = none :=
  (connect_at_most_once ⟨some ⟨.ConnectingState, [], []⟩, [], [], 0⟩ ['h'] 9878).1
    ⟨.ConnectingState, [], []⟩ rfl (by decide)

/-! ## Theorems: the cookie -/

/-- The function `buildRequestData` reads nothing from the socket and changes neither its
state nor the state of the request. -/
theorem buildRequestData_keeps_input (service : Option HiddenService)
    (c : ContactRequestClient) (cookie : List Nat) :
    (buildRequestData service c cookie).2.socket.readBuffer = c.socket.readBuffer
    ∧ (buildRequestData service c cookie).2.socket.state = c.socket.state
    ∧ (buildRequestData service c cookie).2.state = c.state := by
  unfold buildRequestData
  simp only
  split
  · exact ⟨rfl, rfl, rfl⟩
  · split
    · exact ⟨rfl, rfl, rfl⟩
    · split
      · exact ⟨rfl, rfl, rfl⟩
      · split
        · exact ⟨rfl, rfl, rfl⟩
        · split
          · exact ⟨rfl, rfl, rfl⟩
          · split
            · exact ⟨rfl, rfl, rfl⟩
            · exact ⟨rfl, rfl, rfl⟩

/-- C14. Cookie read is exact: in state `WaitCookie`, with fewer than 16 bytes available
`socketReadable` changes nothing (no byte is consumed, the state stays `WaitCookie`); with at
least 16 bytes available it reads exactly the first 16 bytes, hands them to
`buildRequestData` as the cookie and leaves the other `n - 16` bytes in the receive buffer;
when the request is built it moves to `WaitAck`, and when it is not the state stays
`WaitCookie` and the socket is closed. -/
theorem cookie_read_exact (service : Option HiddenService) (c : ContactRequestClient)
    (unspecified : Bool) (hstate : c.state = .WaitCookie) :
    (c.socket.readBuffer.length < 16 → c.socketReadable service unspecified = (none, c))
    ∧ (16 ≤ c.socket.readBuffer.length →
        (c.socket.readBuffer.take 16).length = 16
        ∧ (c.socket.readBuffer.drop 16).length = c.socket.readBuffer.length - 16
        ∧ (c.socketReadable service unspecified).1
            = some (buildRequestData service
                { c with socket := { c.socket with readBuffer := c.socket.readBuffer.drop 16 } }
                (c.socket.readBuffer.take 16)).1
        ∧ (c.socketReadable service unspecified).2.socket.readBuffer
            = c.socket.readBuffer.drop 16
        ∧ ((c.socketReadable service unspecified).1 = some (.Returned true none) →
            (c.socketReadable service unspecified).2.state = .WaitAck)
        ∧ (∀ w, (c.socketReadable service unspecified).1 = some (.Returned false w) →
            (c.socketReadable service unspecified).2.state = .WaitCookie
            ∧ (c.socketReadable service unspecified).2.socket.state = .UnconnectedState)) := by
  obtain ⟨state, socket, nick, message⟩ := c
  simp only at hstate
  subst hstate
  constructor
  · intro hn
    unfold ContactRequestClient.socketReadable
    simp only at hn
    simp [hn]
  · intro hn
    simp only at hn
    have hlt : ¬ socket.readBuffer.length < 16 := by omega
    have hk := buildRequestData_keeps_input service
      ⟨.WaitCookie, { socket with readBuffer := socket.readBuffer.drop 16 }, nick, message⟩
      (socket.readBuffer.take 16)
    refine ⟨by simp only [List.length_take]; omega, by simp only [List.length_drop], ?_⟩
    unfold ContactRequestClient.socketReadable
    simp only [hlt, if_false]
    generalize buildRequestData service
      ⟨.WaitCookie, { socket with readBuffer := socket.readBuffer.drop 16 }, nick, message⟩
      (socket.readBuffer.take 16) = r at hk
    obtain ⟨outcome, c2⟩ := r
    obtain ⟨h1, h2, h3⟩ := hk
    simp only at h1 h2 h3
    cases outcome with
    | NullDereference => simp [h1]
    | Returned ok w =>
      cases ok with
      | true => simp [h1]
      | false => simp [h1, h3, QTcpSocket.close]

/-- Twenty bytes available, with a local service whose hostname and key are usable. -/
theorem cookie_read_exact_witness :
    ((⟨.WaitCookie, ⟨.ConnectedState, List.replicate 20 7, [128]⟩, [], []⟩ :
        ContactRequestClient).socketReadable
      (some ⟨utf16 ['a', 'b', 'c', 'd', 'e', 'f', 'g', 'h', 'i', 'j', 'k', 'l', 'm', 'n', 'o',
              'p', '.', 'o', 'n', 'i', 'o', 'n'], ⟨true, some [1], fun _ => some [2]⟩⟩)
      true).2.state = .WaitAck :=
  ((cookie_read_exact
      (some ⟨utf16 ['a', 'b', 'c', 'd', 'e', 'f', 'g', 'h', 'i', 'j', 'k', 'l', 'm', 'n', 'o',
              'p', '.', 'o', 'n', 'i', 'o', 'n'], ⟨true, some [1], fun _ => some [2]⟩⟩)
      ⟨.WaitCookie, ⟨.ConnectedState, List.replicate 20 7, [128]⟩, [], []⟩ true rfl).2
    (by decide)).2.2.2.2.1 (by decide)

/-! ## Theorems: the queue is empty while connected -/

/-- The constructed manager has no socket, so it is not connected. -/
theorem queueInv_init :
    ProtocolManager.init.isPrimaryConnected = true → ProtocolManager.init.commandQueue = [] := by
  intro _; rfl

/-- An ordered `sendCommand` keeps "connected implies queue empty". -/
theorem sendCommand_queue {m m1 : ProtocolManager} {c : ProtocolCommand}
    (hinv : m.isPrimaryConnected = true → m.commandQueue = [])
    (h : sendCommand m c true = .ok m1) :
    m1.isPrimaryConnected = true → m1.commandQueue = [] := by
  cases hc : m.pendingCommands.contains c.identifier with
  | true => simp [sendCommand, hc] at h
  | false =>
    cases hp : m.isPrimaryConnected with
    | false =>
      have hp' : ∀ p q e, ProtocolManager.isPrimaryConnected ⟨m.primarySocket, p, q, e⟩ = false :=
        fun _ _ _ => hp
      simp only [sendCommand, hc] at h
      simp [hp'] at h
      subst h
      intro hcon
      rw [hp' _ _ _] at hcon
      cases hcon
    | true =>
      have hp' : ∀ p q e, ProtocolManager.isPrimaryConnected ⟨m.primarySocket, p, q, e⟩ = true :=
        fun _ _ _ => hp
      have hq := hinv hp
      simp only [sendCommand, hc] at h
      simp [hp', hq] at h
      subst h
      intro _
      rfl

/-- Under "connected implies queue empty" the assertion of line 92 holds. -/
theorem sendCommand_queue_assertion {m : ProtocolManager} {c : ProtocolCommand}
    (hinv : m.isPrimaryConnected = true → m.commandQueue = []) :
    sendCommand m c true ≠ .error .QueueNotEmpty := by
  cases hc : m.pendingCommands.contains c.identifier with
  | true => simp [sendCommand, hc]
  | false =>
    cases hp : m.isPrimaryConnected with
    | false =>
      have hp' : ∀ p q e, ProtocolManager.isPrimaryConnected ⟨m.primarySocket, p, q, e⟩ = false :=
        fun _ _ _ => hp
      simp only [sendCommand, hc]
      simp [hp']
    | true =>
      have hp' : ∀ p q e, ProtocolManager.isPrimaryConnected ⟨m.primarySocket, p, q, e⟩ = true :=
        fun _ _ _ => hp
      have hq := hinv hp
      simp only [sendCommand, hc]
      simp [hp', hq]

/-- The slot `socketConnected` keeps "connected implies queue empty". -/
theorem socketConnected_queue {m m1 : ProtocolManager} {sender : Sender}
    (hinv : m.isPrimaryConnected = true → m.commandQueue = [])
    (h : socketConnected m sender = .ok m1) :
    m1.isPrimaryConnected = true → m1.commandQueue = [] := by
  unfold socketConnected at h
  split at h
  · cases h
  · injection h with h; subst h; intro _; rfl
  · injection h with h; subst h; exact hinv

/-- After the connect event the queue is empty. -/
theorem primaryConnectedEvent_queue {m m1 : ProtocolManager}
    (h : primaryConnectedEvent m = .ok m1) :
    m1.isPrimaryConnected = true → m1.commandQueue = [] := by
  cases hs : m.primarySocket with
  | none =>
    simp [primaryConnectedEvent, socketConnected, hs] at h
    subst h
    intro hcon
    simp [ProtocolManager.isPrimaryConnected, hs] at hcon
  | some s =>
    simp [primaryConnectedEvent, socketConnected, hs] at h
    subst h
    intro _
    rfl

/-- The connect event does not reach the assertion of line 92. -/
theorem primaryConnectedEvent_queue_assertion (m : ProtocolManager) :
    primaryConnectedEvent m ≠ .error .QueueNotEmpty := by
  unfold primaryConnectedEvent socketConnected
  split <;> simp

/-- The function `connectPrimary` keeps "connected implies queue empty". -/
theorem connectPrimary_queue {m : ProtocolManager}
    (hinv : m.isPrimaryConnected = true → m.commandQueue = []) :
    (connectPrimary m).isPrimaryConnected = true → (connectPrimary m).commandQueue = [] := by
  cases hs : m.primarySocket with
  | none => simp [connectPrimary, hs, ProtocolManager.isPrimaryConnected]
  | some s =>
    by_cases hst : s.state = .UnconnectedState
    · simp [connectPrimary, hs, hst, ProtocolManager.isPrimaryConnected]
    · have : connectPrimary m = m := by simp [connectPrimary, hs, hst]
      rw [this]; exact hinv

/-- After the disconnect event the socket is not connected. -/
theorem primaryDisconnectedEvent_queue (m : ProtocolManager) :
    (primaryDisconnectedEvent m).isPrimaryConnected = true →
      (primaryDisconnectedEvent m).commandQueue = [] := by
  cases hs : m.primarySocket with
  | none =>
    simp [primaryDisconnectedEvent, socketDisconnected, hs, ProtocolManager.isPrimaryConnected]
  | some s =>
    simp [primaryDisconnectedEvent, socketDisconnected, hs, ProtocolManager.isPrimaryConnected]

/-- The arrival of bytes keeps "connected implies queue empty". -/
theorem primaryReceiveEvent_queue {m : ProtocolManager} (bytes : List Nat)
    (hinv : m.isPrimaryConnected = true → m.commandQueue = []) :
    (primaryReceiveEvent m bytes).isPrimaryConnected = true →
      (primaryReceiveEvent m bytes).commandQueue = [] := by
  cases hs : m.primarySocket with
  | none => simp [primaryReceiveEvent, hs, ProtocolManager.isPrimaryConnected]
  | some s =>
    intro hcon
    simp [primaryReceiveEvent, hs, ProtocolManager.isPrimaryConnected] at hcon
    simp only [primaryReceiveEvent]
    exact hinv (by simp [ProtocolManager.isPrimaryConnected, hs, hcon])

/-- The slot `socketReadable` keeps "connected implies queue empty". -/
theorem primaryReadableEvent_queue {m m1 : ProtocolManager}
    (hinv : m.isPrimaryConnected = true → m.commandQueue = [])
    (h : primaryReadableEvent m = .ok m1) :
    m1.isPrimaryConnected = true → m1.commandQueue = [] := by
  cases hs : m.primarySocket with
  | none =>
    simp [primaryReadableEvent, hs] at h
    subst h
    exact hinv
  | some s =>
    simp only [primaryReadableEvent, hs] at h
    split at h
    · cases h
    · cases h
    · injection h with h
      subst h
      intro hcon
      simp [ProtocolManager.isPrimaryConnected] at hcon
      exact hinv (by simp [ProtocolManager.isPrimaryConnected, hs, hcon])

/-- The slot `socketReadable` does not reach the assertion of line 92. -/
theorem primaryReadableEvent_queue_assertion (m : ProtocolManager) :
    primaryReadableEvent m ≠ .error .QueueNotEmpty := by
  unfold primaryReadableEvent
  split
  · simp
  · simp only
    split <;> simp

/-- The operation `send` keeps "connected implies queue empty". -/
theorem send_queue {m m1 : ProtocolManager} {cb : List Nat} {rand : Nat → Nat} {fuel id : Nat}
    (hinv : m.isPrimaryConnected = true → m.commandQueue = [])
    (h : send m cb true rand fuel = .Sent id m1) :
    m1.isPrimaryConnected = true → m1.commandQueue = [] := by
  unfold send at h
  split at h
  · cases h
  · cases h
  · split at h
    · rename_i m2 hs
      injection h with _ h2
      subst h2
      exact sendCommand_queue hinv hs
    · cases h

/-- Under "connected implies queue empty" a `send` does not trip the assertion of line 92. -/
theorem send_queue_assertion {m : ProtocolManager} (cb : List Nat) (rand : Nat → Nat)
    (fuel : Nat) (hinv : m.isPrimaryConnected = true → m.commandQueue = []) :
    send m cb true rand fuel ≠ .Aborted .QueueNotEmpty := by
  unfold send
  split
  · simp
  · simp
  · rename_i k hk
    have hn := @sendCommand_queue_assertion m ⟨k + 1, cb⟩ hinv
    split
    · simp
    · rename_i e he
      intro h
      injection h with h
      subst h
      exact hn he

/-- Every operation keeps "connected implies queue empty". -/
theorem applyOp_queue {m m1 : ProtocolManager} {op : Op}
    (hinv : m.isPrimaryConnected = true → m.commandQueue = [])
    (h : applyOp m op = .ok m1) :
    m1.isPrimaryConnected = true → m1.commandQueue = [] := by
  cases op with
  | Send cb rand fuel =>
    simp only [applyOp] at h
    split at h
    · rename_i id m2 hs
      injection h with h
      subst h
      exact send_queue hinv hs
    · cases h
    · injection h with h; subst h; exact hinv
    · injection h with h; subst h; exact hinv
  | Resolve id =>
    simp only [applyOp] at h
    injection h with h
    subst h
    exact hinv
  | ConnectPrimary =>
    simp only [applyOp] at h
    injection h with h
    subst h
    exact connectPrimary_queue hinv
  | Connected =>
    simp only [applyOp] at h
    exact primaryConnectedEvent_queue h
  | Disconnected =>
    simp only [applyOp] at h
    injection h with h
    subst h
    exact primaryDisconnectedEvent_queue m

/-- Under "connected implies queue empty" no operation trips the assertion of line 92. -/
theorem applyOp_queue_assertion {m : ProtocolManager} (op : Op)
    (hinv : m.isPrimaryConnected = true → m.commandQueue = []) :
    applyOp m op ≠ .error .QueueNotEmpty := by
  cases op with
  | Send cb rand fuel =>
    simp only [applyOp]
    have hn := send_queue_assertion cb rand fuel hinv
    split
    · simp
    · rename_i e he
      intro h
      injection h with h
      subst h
      exact hn he
    · simp
    · simp
  | Resolve id => simp [applyOp]
  | ConnectPrimary => simp [applyOp]
  | Connected => exact primaryConnectedEvent_queue_assertion _
  | Disconnected => simp [applyOp]

/-- Every event keeps "connected implies queue empty". -/
theorem applyEvent_queue {m m1 : ProtocolManager} {ev : Event}
    (hinv : m.isPrimaryConnected = true → m.commandQueue = [])
    (h : applyEvent m ev = .ok m1) :
    m1.isPrimaryConnected = true → m1.commandQueue = [] := by
  cases ev with
  | Operation op => exact applyOp_queue hinv h
  | SendCommand c => exact sendCommand_queue hinv h
  | Receive bytes =>
    simp only [applyEvent] at h
    injection h with h
    subst h
    exact primaryReceiveEvent_queue bytes hinv
  | Readable => exact primaryReadableEvent_queue hinv h

/-- Under "connected implies queue empty" no event trips the assertion of line 92. -/
theorem applyEvent_queue_assertion {m : ProtocolManager} (ev : Event)
    (hinv : m.isPrimaryConnected = true → m.commandQueue = []) :
    applyEvent m ev ≠ .error .QueueNotEmpty := by
  cases ev with
  | Operation op => exact applyOp_queue_assertion op hinv
  | SendCommand c => exact sendCommand_queue_assertion hinv
  | Receive bytes => simp [applyEvent]
  | Readable => exact primaryReadableEvent_queue_assertion m

/-- From a state with "connected implies queue empty", no sequence of events trips the
assertion of line 92, and the property holds in the state reached. -/
theorem applyEvents_queue (evs : List Event) :
    ∀ m : ProtocolManager, (m.isPrimaryConnected = true → m.commandQueue = []) →
      applyEvents m evs ≠ .error .QueueNotEmpty
      ∧ ∀ m1, applyEvents m evs = .ok m1 →
          m1.isPrimaryConnected = true → m1.commandQueue = [] := by
  induction evs with
  | nil =>
    intro m hinv
    refine ⟨by simp [applyEvents], ?_⟩
    intro m1 h
    simp only [applyEvents] at h
    injection h with h
    subst h
    exact hinv
  | cons ev evs ih =>
    intro m hinv
    rw [applyEvents]
    cases hev : applyEvent m ev with
    | ok m2 => exact ih m2 (applyEvent_queue hinv hev)
    | error e =>
      refine ⟨?_, by intro m1 h; cases h⟩
      intro h
      injection h with h
      subst h
      exact applyEvent_queue_assertion ev hinv hev

/-- C15. Queue-empty-while-connected invariant: in every state reached from the constructed
manager by any sequence of ordered `sendCommand` calls (with any command), `send`
operations, reply resolutions, `connectPrimary` calls, socket-connected, socket-disconnected,
bytes-received and socket-readable events, if the primary socket is connected then
`commandQueue` is empty; and no such run ends at the assertion `commandQueue.isEmpty()` of
`sendCommand` (line 92). -/
theorem queue_empty_while_connected (evs : List Event) :
    applyEvents ProtocolManager.init evs ≠ .error .QueueNotEmpty
    ∧ ∀ m, applyEvents ProtocolManager.init evs = .ok m →
        m.isPrimaryConnected = true → m.commandQueue = [] :=
  applyEvents_queue evs ProtocolManager.init (fun _ => rfl)

/-- A command queued before the connection, flushed by it, and one sent after it. -/
theorem queue_empty_while_connected_witness :
    ProtocolManager.isPrimaryConnected ⟨some ⟨.ConnectedState, [9], [5, 6]⟩,
        [(2, ⟨2, [6]⟩), (1, ⟨1, [5]⟩)], [], 1⟩ = true →
      ProtocolManager.commandQueue ⟨some ⟨.ConnectedState, [9], [5, 6]⟩,
        [(2, ⟨2, [6]⟩), (1, ⟨1, [5]⟩)], [], 1⟩ = [] :=
  (queue_empty_while_connected
    [.SendCommand ⟨1, [5]⟩, .Operation .ConnectPrimary, .Operation .Connected,
     .SendCommand ⟨2, [6]⟩, .Receive [9]]).2 _ rfl

/-! ## Theorems: no local service -/

/-- C16. Missing local service: for every cookie, when there is no hidden service (the lookup
yields the null pointer), `buildRequestData` returns false at the hostname-length check and
leaves the client as it was, so it writes nothing to the socket; and for no service, client
and cookie does the function reach a method call through a null `service`: the key is
accessed only when the service is non-null. -/
theorem missing_service_no_null_dereference (c : ContactRequestClient) (cookie : List Nat) :
    buildRequestData none c cookie = (.Returned false (some .LocalHostnameInvalid), c)
    ∧ (buildRequestData none c cookie).2.socket.written = c.socket.written
    ∧ ∀ (service : Option HiddenService) (c1 : ContactRequestClient) (cookie1 : List Nat),
        (buildRequestData service c1 cookie1).1 = .NullDereference → False := by
  have h := buildRequestData_hostname_guard none c cookie (by decide)
  refine ⟨h, by rw [h], ?_⟩
  intro service c1 cookie1 hnull
  cases service with
  | none =>
    rw [buildRequestData_hostname_guard none c1 cookie1 (by decide)] at hnull
    cases hnull
  | some sv =>
    unfold buildRequestData at hnull
    simp only at hnull
    split at hnull
    · cases hnull
    · split at hnull
      · cases hnull
      · split at hnull
        · cases hnull
        · split at hnull
          · cases hnull
          · split at hnull
            · cases hnull
            · cases hnull

/-- A fresh client without a local service, and a cookie of 16 zero bytes. -/
theorem missing_service_no_null_dereference_witness :
    buildRequestData none (ContactRequestClient.init [] []) (List.replicate 16 0)
      = (.Returned false (some .LocalHostnameInvalid), ContactRequestClient.init [] []) :=
  (missing_service_no_null_dereference (ContactRequestClient.init [] [])
    (List.replicate 16 0)).1

end Rebound
